import Mathlib

/-!
Verification of the scenario execution engine of AutoFlow Studio
(`core/scenario_runner.py`), as a shallow embedding in Lean.

The external UI surface (pywinauto) is modelled by finite oracle streams:
each liveness probe, element wait and UI action consumes one entry of the
corresponding stream.  Wall-clock data (timestamps, durations, sleeps) and
file IO (the CSV reader, the HTML report writer) are outside the model; the
parsed data rows are passed to `run_scenario` directly.
-/

namespace AutoFlow

/-- Python exception kinds raised by `core/scenario_runner.py` and its
pywinauto collaborators.  Every one of them derives from `Exception`, so a
bare `except Exception` handler catches each of them. -/
inductive RunError where
  /-- `TargetAppClosedError`, raised by `_check_app_is_alive`. -/
  | targetAppClosed : RunError
  /-- `VariableNotFoundError`, raised by `_resolve_variables`' replacer. -/
  | variableNotFound (key : String) : RunError
  /-- `ValueError` (missing path, missing identifiers, missing variable name). -/
  | valueError (msg : String) : RunError
  /-- Python `SyntaxError` raised by the block-matching scanners. -/
  | structuralError (msg : String) : RunError
  /-- `AttributeError`, e.g. `None.items()` when a condition has no target. -/
  | attributeError : RunError
  /-- a pywinauto failure (`TimeoutError`, `ElementNotFoundError`, a failed
  click/set/get), i.e. the external surface did not cooperate. -/
  | uiFailure : RunError
deriving Repr, DecidableEq

/-- the details string recorded with a failure (`str(last_exception)`;
Python renders `None` as `"None"`).  The concrete message texts are
abbreviated stand-ins for the Python exception messages. -/
def errDetails : Option RunError → String
  | none => "None"
  | some .targetAppClosed => "TargetAppClosedError"
  | some (.variableNotFound k) => "VariableNotFoundError: " ++ k
  | some (.valueError m) => "ValueError: " ++ m
  | some (.structuralError m) => "SyntaxError: " ++ m
  | some .attributeError => "AttributeError"
  | some .uiFailure => "ElementNotFoundError"

/-- the character `\x7b` (opening curly brace). -/
def braceL : Char := Char.ofNat 123

/-- the character `\x7d` (closing curly brace). -/
def braceR : Char := Char.ofNat 125

/-- ASCII whitespace as matched by the regex class `\s` and by `str.strip()`. -/
def isPySpace (c : Char) : Bool :=
  (c == ' ') || (c == '\t') || (c == '\n') || (c == '\r') ||
  (c == Char.ofNat 11) || (c == Char.ofNat 12)

/-- strip leading and trailing `\s` characters (Python `str.strip()`). -/
def trimChars (l : List Char) : List Char :=
  ((l.dropWhile isPySpace).reverse.dropWhile isPySpace).reverse

/-- the characters strictly before the first occurrence of the two-character
sequence `\x7d\x7d`, together with the characters after it.  This is where the
lazy group of the pattern `\x7b\x7b\s*(.*?)\s*\x7d\x7d` ends: the non-greedy
`(.*?)` stops at the earliest possible closing pair. -/
def findClose : List Char → Option (List Char × List Char)
  | [] => none
  | c :: rest =>
    if c = braceR then
      match rest with
      | c2 :: rest2 =>
        if c2 = braceR then some ([], rest2)
        else
          match findClose rest with
          | some (inner, suf) => some (c :: inner, suf)
          | none => none
      | [] => none
    else
      match findClose rest with
      | some (inner, suf) => some (c :: inner, suf)
      | none => none

theorem findClose_decomp :
    ∀ (l inner suf : List Char), findClose l = some (inner, suf) →
      l = inner ++ braceR :: braceR :: suf := by
  intro l
  induction l with
  | nil => intro inner suf h; simp [findClose] at h
  | cons c rest ih =>
    intro inner suf h
    simp only [findClose] at h
    split at h
    · rename_i hc
      split at h
      · rename_i c2 rest2
        split at h
        · rename_i hc2
          rw [Option.some_inj, Prod.mk.injEq] at h
          obtain ⟨h1, h2⟩ := h
          subst h1; subst h2; subst hc; subst hc2
          simp
        · rename_i hc2
          cases hfc : findClose (c2 :: rest2) with
          | none => rw [hfc] at h; simp at h
          | some p =>
            obtain ⟨i, s⟩ := p
            rw [hfc] at h
            rw [Option.some_inj, Prod.mk.injEq] at h
            obtain ⟨h1, h2⟩ := h
            subst h2
            have hd := ih _ _ hfc
            subst h1
            simp [hd, hc]
      · simp at h
    · rename_i hc
      cases hfc : findClose rest with
      | none => rw [hfc] at h; simp at h
      | some p =>
        obtain ⟨i, s⟩ := p
        rw [hfc] at h
        rw [Option.some_inj, Prod.mk.injEq] at h
        obtain ⟨h1, h2⟩ := h
        subst h2
        have hd := ih _ _ hfc
        subst h1
        simp [hd]

theorem findClose_suffix_lt (l inner suf : List Char)
    (h : findClose l = some (inner, suf)) : suf.length < l.length := by
  have hd := findClose_decomp l inner suf h
  subst hd
  simp
  omega

/-- association-list lookup, modelling Python dict membership/access. -/
def lookupAssoc : List (String × String) → String → Option String
  | [], _ => none
  | (k', v) :: t, k => if k' = k then some v else lookupAssoc t k

/-- the `replacer` closure of `_resolve_variables`: the runtime variable
store is consulted first, then the data row — where Python's
`if data_row and key in data_row` requires the row to be present *and*
non-empty.  A key found in neither raises `VariableNotFoundError`. -/
def lookupVariable (vars : List (String × String))
    (row : Option (List (String × String))) (key : String) :
    Except RunError String :=
  match lookupAssoc vars key with
  | some v => .ok v
  | none =>
    match row with
    | some r =>
      if r = [] then .error (.variableNotFound key)
      else
        match lookupAssoc r key with
        | some v => .ok v
        | none => .error (.variableNotFound key)
    | none => .error (.variableNotFound key)

/-- the `re.sub` scan of `_resolve_variables` over the text, character by
character.  A placeholder opens at `\x7b\x7b`; the lazy group ends at the
first `\x7d\x7d`; the captured key is stripped of surrounding whitespace.
When the stripped key contains a newline the regex (whose `.` does not match
newlines) cannot match at this position and the scan resumes one character
further, exactly as `re.sub` does.  When no closing pair exists the rest of
the text is left untouched.  Substitution continues after the replaced
span; a lookup failure aborts the whole substitution. -/
def substAux (vars : List (String × String))
    (row : Option (List (String × String))) :
    List Char → Except RunError (List Char)
  | [] => .ok []
  | c :: rest =>
    if c = braceL then
      match rest with
      | c2 :: rest2 =>
        if c2 = braceL then
          match hfc : findClose rest2 with
          | some (inner, suf) =>
            let key := trimChars inner
            if key.contains '\n' then
              match substAux vars row (c2 :: rest2) with
              | .ok t => .ok (c :: t)
              | .error e => .error e
            else
              match lookupVariable vars row (String.mk key) with
              | .error e => .error e
              | .ok v =>
                match substAux vars row suf with
                | .ok t => .ok (v.data ++ t)
                | .error e => .error e
          | none => .ok (c :: rest)
        else
          match substAux vars row (c2 :: rest2) with
          | .ok t => .ok (c :: t)
          | .error e => .error e
      | [] => .ok [c]
    else
      match substAux vars row rest with
      | .ok t => .ok (c :: t)
      | .error e => .error e
termination_by l => l.length
decreasing_by
  · simp
  · have := findClose_suffix_lt _ _ _ hfc
    simp
    omega
  · simp
  · simp

/-- `_resolve_variables(text, data_row)`.  The early return fires when the
data row is `None` *and* the runtime store is empty — in that case the text
is returned unchanged, placeholders and all.  (The other early-return arm,
`not isinstance(text, str)`, concerns non-string inputs which do not arise
in this model.) -/
def resolve_variables (vars : List (String × String))
    (row : Option (List (String × String))) (text : String) :
    Except RunError String :=
  if row = none ∧ vars = [] then .ok text
  else
    match substAux vars row text.data with
    | .ok l => .ok (String.mk l)
    | .error e => .error e

/-- one level of an element path, as authored by the GUI (`flow_editor.py`
emits `title`, `control_type`, `auto_id` and `class_name` for every level).
A missing or `None` property is modelled as the empty string, which is
exactly what the runner's truthiness tests (`if props.get(...)`) treat as
absent. -/
structure ElementProps where
  auto_id : String := ""
  control_type : String := ""
  title : String := ""
  class_name : String := ""
deriving Repr, DecidableEq

/-- the `onError` dict of a step: `{"method": ..., "retries": ...}`. -/
structure OnError where
  method : String
  retries : Option Nat := none
deriving Repr, DecidableEq

/-- the `condition` dict of an `if_condition` / `wait_for_condition` step.
`target := none` models a dict without a `target` key (`condition.get("target")`
then yields `None`, and `None.items()` raises `AttributeError`). -/
structure Condition where
  ctype : String := ""
  target : Option (List (String × String)) := none
deriving Repr, DecidableEq

/-- one scenario step (the step dicts produced by the editor).  String fields
default to `""` for a missing key; `iterations` defaults to 1 and `timeout`
to 10 exactly as the runner's `.get(..., default)` calls do. -/
structure Step where
  id : String := ""
  stype : String := ""
  action : String := ""
  path : List ElementProps := []
  params : List (String × String) := []
  timeout : Nat := 10
  onError : Option OnError := none
  control_type : String := ""
  iterations : Nat := 1
  condition : Condition := {}
deriving Repr, DecidableEq

/-- the outcome the external surface gives to one pywinauto primitive
(a `child_window(...).wait(...)`, a click, a text set, a text read).  `ok`
carries the text the element would report via `window_text()`. -/
inductive UIOutcome where
  | ok (text : String) : UIOutcome
  | fail : UIOutcome
deriving Repr, DecidableEq

/-- the external surface, as three oracle streams consumed in program order:
`alive` answers `_check_app_is_alive` probes (exhausted ⇒ alive), `ui`
answers element waits/actions (exhausted ⇒ failure), `conds` answers the
bounded waits of `_check_condition` / `_execute_wait` (exhausted ⇒ false). -/
structure World where
  alive : List Bool := []
  ui : List UIOutcome := []
  conds : List Bool := []
deriving Repr, DecidableEq

/-- consume one liveness probe. -/
def World.popAlive (w : World) : Bool × World :=
  match w.alive with
  | [] => (true, w)
  | b :: t => (b, { w with alive := t })

/-- consume one element-operation outcome. -/
def World.popUI (w : World) : UIOutcome × World :=
  match w.ui with
  | [] => (.fail, w)
  | o :: t => (o, { w with ui := t })

/-- consume one condition poll. -/
def World.popCond (w : World) : Bool × World :=
  match w.conds with
  | [] => (false, w)
  | b :: t => (b, { w with conds := t })

/-- one entry of `results["steps"]` as appended by `_record_step_result`.
Wall-clock fields (`duration`) are outside the model. -/
structure StepResult where
  id : String
  iteration : Nat
  description : String
  status : String
  details : String
deriving Repr, DecidableEq

/-- the mutable runner state: the runtime variable store, the recorded
trace (`results["steps"]`) and the external surface. -/
structure RunState where
  runtime_variables : List (String × String) := []
  trace : List StepResult := []
  world : World := {}
deriving Repr, DecidableEq

/-- a single quote character (used by the report strings). -/
def sq : String := String.mk [Char.ofNat 39]

/-- a double quote character. -/
def dq : String := String.mk [Char.ofNat 34]

/-- one character of `html.escape` (with its default `quote=True`). -/
def htmlEscapeChar (c : Char) : List Char :=
  if c = '&' then "&amp;".data
  else if c = '<' then "&lt;".data
  else if c = '>' then "&gt;".data
  else if c = Char.ofNat 34 then "&quot;".data
  else if c = Char.ofNat 39 then "&#x27;".data
  else [c]

/-- `html.escape` applied by `_record_step_result` to descriptions/details. -/
def htmlEscape (s : String) : String :=
  String.mk (s.data.map htmlEscapeChar).join

/-- `_get_step_description`.  Missing dict keys are modelled as `""`, so
`step_data.get('action', 'N/A')` becomes a test against `""`. -/
def get_step_description (step : Step) : String :=
  if step.stype = "action" then
    let action := if step.action = "" then "N/A" else step.action.toUpper
    let target_title :=
      match step.path.getLast? with
      | some p => if p.title = "" then "Unknown" else p.title
      | none => "Unknown"
    if action = "SET_TEXT" then
      "SET TEXT on " ++ sq ++ target_title ++ sq ++ " with: " ++ dq ++
        ((lookupAssoc step.params "text").getD "") ++ dq
    else if action = "GET_TEXT" then
      "GET TEXT from " ++ sq ++ target_title ++ sq ++ " and store in [" ++
        ((lookupAssoc step.params "variable_name").getD "N/A") ++ "]"
    else
      action ++ ": " ++ sq ++ target_title ++ sq
  else if step.stype = "control" then
    if step.control_type = "wait_for_condition" then
      let tgtTitle :=
        match step.condition.target with
        | some t => (lookupAssoc t "title").getD "N/A"
        | none => "N/A"
      let wt := if step.condition.ctype = "element_exists" then "appears" else "vanishes"
      "WAIT for " ++ sq ++ tgtTitle ++ sq ++ " to " ++ wt ++
        " (Timeout: " ++ toString step.timeout ++ "s)"
    else
      "CONTROL: " ++ step.control_type.toUpper
  else "Unknown Step"

/-- the entry `_record_step_result` builds for `results["steps"]`. -/
def mkStepRecord (step : Step) (status : String) (iterNum : Nat)
    (details : String) : StepResult :=
  { id := step.id, iteration := iterNum,
    description := htmlEscape (get_step_description step),
    status := status, details := htmlEscape details }

/-- `_record_step_result`: append one entry to `results["steps"]`. -/
def record_step_result (step : Step) (status : String) (iterNum : Nat)
    (details : String) (st : RunState) : RunState :=
  { st with trace := st.trace ++ [mkStepRecord step status iterNum details] }

/-- `_check_app_is_alive`: probe the surface; a dead target raises
`TargetAppClosedError`. -/
def check_app_is_alive (w : World) : World × Option RunError :=
  let (b, w') := w.popAlive
  if b then (w', none) else (w', some .targetAppClosed)

/-- the search-criteria construction of `_find_element_dynamically`, which
appears verbatim twice in the Python source (once for the parent levels,
once for the final target): only non-empty `auto_id`, `control_type` and
`title` enter the criteria, in that order; `class_name` is never consulted. -/
def buildSearchCriteria (p : ElementProps) : List (String × String) :=
  (if p.auto_id ≠ "" then [("auto_id", p.auto_id)] else []) ++
  (if p.control_type ≠ "" then [("control_type", p.control_type)] else []) ++
  (if p.title ≠ "" then [("title", p.title)] else [])

/-- the parent-traversal loop of `_find_element_dynamically`: each level with
empty criteria raises `ValueError` before touching the surface; otherwise
one `child_window(...).wait('exists')` consumes a surface outcome.  (The
`TabItem.select()` side trip has no observable effect in this model.) -/
def findParents : List ElementProps → World → World × Option RunError
  | [], w => (w, none)
  | p :: rest, w =>
    if buildSearchCriteria p = [] then
      (w, some (.valueError "Path step has no valid identifiers"))
    else
      match w.popUI with
      | (.fail, w') => (w', some .uiFailure)
      | (.ok _, w') => findParents rest w'

/-- `_find_element_dynamically`: walk the parent levels, then build the final
target's criteria.  The final `child_window` is returned *without* waiting
(the caller waits), so the last level consumes no surface outcome here. -/
def find_element_dynamically (path : List ElementProps) (w : World) :
    World × Option RunError :=
  match findParents path.dropLast w with
  | (w', some e) => (w', some e)
  | (w', none) =>
    match path.getLast? with
    | none => (w', some (.valueError "empty path"))
    | some p =>
      if buildSearchCriteria p = [] then
        (w', some (.valueError "Final target has no valid identifiers"))
      else (w', none)

/-- the effective error policy: `step.get("onError", {"method": "stop"})`. -/
def policyOf (step : Step) : OnError :=
  step.onError.getD { method := "stop" }

/-- the attempt count:
`retries = policy.get("retries", 3) if method == "retry" else 1`. -/
def attemptsOf (step : Step) : Nat :=
  if (policyOf step).method = "retry" then (policyOf step).retries.getD 3 else 1

/-- Python dict assignment `self.runtime_variables[var_name] = text`. -/
def setVar : List (String × String) → String → String → List (String × String)
  | [], k, v => [(k, v)]
  | (k', v') :: t, k, v => if k' = k then (k, v) :: t else (k', v') :: setVar t k v

/-- one pass through the `try` block of `_execute_action`'s retry loop:
check the path, resolve the element, wait for it
(`wait('exists enabled visible ready')`), then perform the action.  `click`
and `double_click` differ only in which pywinauto method is invoked, so they
share one arm here.  A `get_text` success stores the element text under the
variable name. -/
def attemptAction (step : Step) (row : Option (List (String × String)))
    (st : RunState) : RunState × Option RunError :=
  if step.path = [] then
    (st, some (.valueError "Element path is missing in the scenario step."))
  else
    match find_element_dynamically step.path st.world with
    | (w, some e) => ({ st with world := w }, some e)
    | (w, none) =>
      match w.popUI with
      | (.fail, w1) => ({ st with world := w1 }, some .uiFailure)
      | (.ok _, w1) =>
        let st1 := { st with world := w1 }
        if step.action = "click" ∨ step.action = "double_click" then
          match st1.world.popUI with
          | (.fail, w2) => ({ st1 with world := w2 }, some .uiFailure)
          | (.ok _, w2) => ({ st1 with world := w2 }, none)
        else if step.action = "set_text" then
          match resolve_variables st1.runtime_variables row
              ((lookupAssoc step.params "text").getD "") with
          | .error e => (st1, some e)
          | .ok _ =>
            match st1.world.popUI with
            | (.fail, w2) => ({ st1 with world := w2 }, some .uiFailure)
            | (.ok _, w2) => ({ st1 with world := w2 }, none)
        else if step.action = "get_text" then
          let varName := (lookupAssoc step.params "variable_name").getD ""
          if varName = "" then
            (st1, some (.valueError "Variable name not set for get_text."))
          else
            match st1.world.popUI with
            | (.fail, w2) => ({ st1 with world := w2 }, some .uiFailure)
            | (.ok t, w2) =>
              let vars2 := setVar st1.runtime_variables varName t
              ({ st1 with world := w2, runtime_variables := vars2 }, none)
        else (st1, none)

/-- the result of the `for i in range(attempts)` loop: either some attempt
succeeded, or every attempt failed and `last` is the last exception. -/
inductive AttemptsResult where
  | succeeded (st : RunState) : AttemptsResult
  | exhausted (st : RunState) (last : Option RunError) : AttemptsResult
deriving Repr

/-- the retry loop of `_execute_action`: run attempts until the first
success; keep the last exception. -/
def attemptLoop (step : Step) (row : Option (List (String × String))) :
    Nat → Option RunError → RunState → AttemptsResult
  | 0, last, st => .exhausted st last
  | n + 1, last, st =>
    match attemptAction step row st with
    | (st', none) => .succeeded st'
    | (st', some e) => attemptLoop step row n (some e) st'

/-- `_execute_action`: run the retry loop; a success records one `success`
result and returns.  Exhaustion records one `failure` result with the last
exception and then consults the policy: `stop` re-raises the exception;
`continue` (and, by fall-through, `retry` or any other method string)
returns normally so the caller moves on to the next step. -/
def execute_action (step : Step) (row : Option (List (String × String)))
    (iterNum : Nat) (st : RunState) : RunState × Option RunError :=
  match attemptLoop step row (attemptsOf step) none st with
  | .succeeded st' => (record_step_result step "success" iterNum "" st', none)
  | .exhausted st' last =>
    let st'' := record_step_result step "failure" iterNum (errDetails last) st'
    if (policyOf step).method = "stop" then (st'', last) else (st'', none)

/-- the dict comprehension
`{k: self._resolve_variables(v, data_row) for k, v in target.items() if v}`. -/
def resolveTargetMap (vars : List (String × String))
    (row : Option (List (String × String))) :
    List (String × String) → Except RunError (List (String × String))
  | [] => .ok []
  | (k, v) :: t =>
    if v = "" then resolveTargetMap vars row t
    else
      match resolve_variables vars row v with
      | .error e => .error e
      | .ok v' =>
        match resolveTargetMap vars row t with
        | .error e => .error e
        | .ok t' => .ok ((k, v') :: t')

/-- `_execute_wait`: resolve the target, then wait for existence or
vanishing (one condition poll); the surrounding `try/except` records a
failure and re-raises on any error.  A wait type other than the two known
ones performs no wait and records success. -/
def execute_wait (step : Step) (row : Option (List (String × String)))
    (iterNum : Nat) (st : RunState) : RunState × Option RunError :=
  match step.condition.target with
  | none =>
    (record_step_result step "failure" iterNum
      (errDetails (some .attributeError)) st, some .attributeError)
  | some tgt =>
    match resolveTargetMap st.runtime_variables row tgt with
    | .error e =>
      (record_step_result step "failure" iterNum (errDetails (some e)) st, some e)
    | .ok _ =>
      if step.condition.ctype = "element_exists" ∨
          step.condition.ctype = "element_vanishes" then
        match st.world.popCond with
        | (true, w) =>
          (record_step_result step "success" iterNum "" { st with world := w }, none)
        | (false, w) =>
          (record_step_result step "failure" iterNum
            (errDetails (some .uiFailure)) { st with world := w }, some .uiFailure)
      else
        (record_step_result step "success" iterNum "" st, none)

/-- `_check_condition`: resolve the target (with `data_row = None`), then
only an `element_exists` condition actually polls the surface; every other
condition type falls through to `return False`. -/
def check_condition (cond : Condition) (vars : List (String × String))
    (w : World) : World × Except RunError Bool :=
  match cond.target with
  | none => (w, .error .attributeError)
  | some tgt =>
    match resolveTargetMap vars none tgt with
    | .error e => (w, .error e)
    | .ok _ =>
      if cond.ctype = "element_exists" then
        let (b, w') := w.popCond
        (w', .ok b)
      else (w, .ok false)

/-- the scan loop of `_find_matching_end`, over `steps[i:]` with the current
absolute index `i` and nesting depth.  Only `control`-typed steps move the
depth; the scan returns the first index where the depth reaches zero. -/
def fmeGo (startKw endKw : String) : List Step → Nat → Nat → Option Nat
  | [], _, _ => none
  | s :: rest, i, depth =>
    if s.stype = "control" then
      let ct := s.control_type
      let depth' := if ct = startKw then depth + 1
                    else if ct = endKw then depth - 1 else depth
      if depth' = 0 then some i
      else fmeGo startKw endKw rest (i + 1) depth'
    else fmeGo startKw endKw rest (i + 1) depth

/-- `_find_matching_end(steps, start_index, start_kw, end_kw)`: scan from
`start_index + 1` at depth 1; no match raises a `SyntaxError`. -/
def find_matching_end (steps : List Step) (startIndex : Nat)
    (startKw endKw : String) : Except RunError Nat :=
  match fmeGo startKw endKw (steps.drop (startIndex + 1)) (startIndex + 1) 1 with
  | some i => .ok i
  | none => .error (.structuralError ("No matching " ++ endKw))

/-- the shared scan of `_find_else_or_end_if` and `_find_catch_or_end_try`
(the two Python methods are identical up to the three keywords).  Reaching
depth 0 yields `(none, i)`; meeting the separator at depth 1 re-scans from
just after it (Python recurses into the same method from index `i`) and
yields the separator index together with that re-scan's end index; running
off the list raises a `SyntaxError`. -/
def sepGo (openKw closeKw sepKw : String) :
    List Step → Nat → Nat → Except RunError (Option Nat × Nat)
  | [], _, _ => .error (.structuralError ("No matching " ++ closeKw))
  | s :: rest, i, depth =>
    if s.stype = "control" then
      let ct := s.control_type
      let depth' := if ct = openKw then depth + 1
                    else if ct = closeKw then depth - 1 else depth
      if depth' = 0 then .ok (none, i)
      else if depth' = 1 ∧ ct = sepKw then
        match sepGo openKw closeKw sepKw rest (i + 1) 1 with
        | .ok (_, endIdx) => .ok (some i, endIdx)
        | .error e => .error e
      else sepGo openKw closeKw sepKw rest (i + 1) depth'
    else sepGo openKw closeKw sepKw rest (i + 1) depth

/-- `_find_else_or_end_if(steps, start_index)`. -/
def find_else_or_end_if (steps : List Step) (startIndex : Nat) :
    Except RunError (Option Nat × Nat) :=
  sepGo "if_condition" "end_if" "else" (steps.drop (startIndex + 1)) (startIndex + 1) 1

/-- `_find_catch_or_end_try(steps, start_index)`. -/
def find_catch_or_end_try (steps : List Step) (startIndex : Nat) :
    Except RunError (Option Nat × Nat) :=
  sepGo "try_catch_start" "try_catch_end" "catch_separator"
    (steps.drop (startIndex + 1)) (startIndex + 1) 1

theorem fmeGo_some_bounds (a b : String) :
    ∀ (l : List Step) (i d j : Nat), fmeGo a b l i d = some j →
      i ≤ j ∧ j < i + l.length := by
  intro l
  induction l with
  | nil => intro i d j h; simp [fmeGo] at h
  | cons s rest ih =>
    intro i d j h
    simp only [fmeGo] at h
    repeat' split at h
    all_goals first
    | (simp at h
       done)
    | (rw [Option.some_inj] at h
       subst h
       simp only [List.length_cons]
       omega)
    | (have hb := ih _ _ _ h
       simp only [List.length_cons]
       omega)

theorem sepGo_ok_bounds (a b c : String) :
    ∀ (l : List Step) (i d : Nat) (so : Option Nat) (j : Nat),
      sepGo a b c l i d = .ok (so, j) → i ≤ j ∧ j < i + l.length := by
  intro l
  induction l with
  | nil => intro i d so j h; simp [sepGo] at h
  | cons s rest ih =>
    intro i d so j h
    simp only [sepGo] at h
    repeat' split at h
    all_goals first
    | (simp at h
       done)
    | (rw [Except.ok.injEq, Prod.mk.injEq] at h
       obtain ⟨h1, h2⟩ := h
       subst h2
       simp only [List.length_cons]
       omega)
    | (have hb := ih _ _ _ _ h
       simp only [List.length_cons]
       omega)
    | (rename_i heq
       rw [Except.ok.injEq, Prod.mk.injEq] at h
       obtain ⟨h1, h2⟩ := h
       subst h2
       have hb := ih _ _ _ _ heq
       simp only [List.length_cons]
       omega)

mutual

/-- the core interpreter `_execute_steps`, in program-counter-suffix form:
the Python loop keeps an absolute `pc` into the full list; here the list
argument is always `steps[pc:]`, so the current step is the head and the
scanners run with `start_index = 0`.  An index `e` returned by a scanner is
relative to the current suffix, so Python's `steps[pc+1 : pc+x]` is
`rest.take (x - 1)` and resuming at `pc = e + 1` is `rest.drop e`.
Every iteration first probes liveness; a dead target raises.  The `try`
handler catches *any* exception from the try body (`except Exception`),
runs the catch body when a separator exists, and continues after the end
marker.  Unknown step or control types fall through to `pc += 1`. -/
def execute_steps : List Step → Option (List (String × String)) → Nat →
    RunState → RunState × Option RunError
  | [], _, _, st => (st, none)
  | s :: rest, row, iterNum, st =>
    match check_app_is_alive st.world with
    | (w, some e) => ({ st with world := w }, some e)
    | (w, none) =>
      let st0 : RunState := { st with world := w }
      if s.stype = "action" then
        match execute_action s row iterNum st0 with
        | (st', some e) => (st', some e)
        | (st', none) => execute_steps rest row iterNum st'
      else if s.stype = "control" then
        if s.control_type = "start_loop" then
          match find_matching_end (s :: rest) 0 "start_loop" "end_loop" with
          | .error e => (st0, some e)
          | .ok endIdx =>
            match execute_loop (rest.take (endIdx - 1)) row iterNum s.iterations st0 with
            | (st', some e) => (st', some e)
            | (st', none) => execute_steps (rest.drop endIdx) row iterNum st'
        else if s.control_type = "if_condition" then
          match find_else_or_end_if (s :: rest) 0 with
          | .error e => (st0, some e)
          | .ok (elseIdx?, endIdx) =>
            match check_condition s.condition st0.runtime_variables st0.world with
            | (w', .error e) => ({ st0 with world := w' }, some e)
            | (w', .ok b) =>
              let st1 : RunState := { st0 with world := w' }
              let branch :=
                if b then
                  let bodyEnd := match elseIdx? with | some e => e | none => endIdx
                  execute_steps (rest.take (bodyEnd - 1)) row iterNum st1
                else
                  match elseIdx? with
                  | some eIdx =>
                    execute_steps ((rest.drop eIdx).take (endIdx - eIdx - 1)) row iterNum st1
                  | none => (st1, none)
              match branch with
              | (st', some e) => (st', some e)
              | (st', none) => execute_steps (rest.drop endIdx) row iterNum st'
        else if s.control_type = "try_catch_start" then
          match find_catch_or_end_try (s :: rest) 0 with
          | .error e => (st0, some e)
          | .ok (catchIdx?, endIdx) =>
            let bodyEnd := match catchIdx? with | some c => c | none => endIdx
            let afterTry :=
              match execute_steps (rest.take (bodyEnd - 1)) row iterNum st0 with
              | (st', none) => (st', (none : Option RunError))
              | (st', some _) =>
                match catchIdx? with
                | some cIdx =>
                  execute_steps ((rest.drop cIdx).take (endIdx - cIdx - 1)) row iterNum st'
                | none => (st', none)
            match afterTry with
            | (st', some e) => (st', some e)
            | (st', none) => execute_steps (rest.drop endIdx) row iterNum st'
        else if s.control_type = "wait_for_condition" then
          match execute_wait s row iterNum st0 with
          | (st', some e) => (st', some e)
          | (st', none) => execute_steps rest row iterNum st'
        else execute_steps rest row iterNum st0
      else execute_steps rest row iterNum st0
termination_by l _ _ _ => (l.length, 0)
decreasing_by
  all_goals simp_wf
  all_goals first
  | (apply Prod.Lex.left; omega)
  | (apply Prod.Lex.right; omega)

/-- the `for i in range(loop_count)` loop of the `start_loop` handler:
execute the body `n` times, aborting on the first propagated error. -/
def execute_loop : List Step → Option (List (String × String)) → Nat →
    Nat → RunState → RunState × Option RunError
  | _, _, _, 0, st => (st, none)
  | body, row, iterNum, n + 1, st =>
    match execute_steps body row iterNum st with
    | (st', some e) => (st', some e)
    | (st', none) => execute_loop body row iterNum n st'
termination_by body _ _ n _ => (body.length, n)
decreasing_by
  · apply Prod.Lex.right
    omega
  · apply Prod.Lex.right
    omega

end

/-- the `results["summary"]` record.  Wall-clock fields (`start_time`,
`end_time`, `duration`) are outside the model. -/
structure RunSummary where
  total_steps : Nat := 0
  passed_steps : Nat := 0
  failed_steps : Nat := 0
  status : String := "In Progress"
  data_iterations : Nat := 0
deriving Repr, DecidableEq

/-- the `results` dict built by `run_scenario`. -/
structure RunResults where
  summary : RunSummary
  steps : List StepResult
deriving Repr, DecidableEq

/-- the data-driven loop of `run_scenario`: for each row, clear the runtime
variable store and execute the whole step list with iteration numbers
`i+1, i+2, ...`; the first propagated error aborts the remaining rows. -/
def runRows (stepList : List Step) :
    List (List (String × String)) → Nat → RunState → RunState × Option RunError
  | [], _, st => (st, none)
  | r :: more, i, st =>
    match execute_steps stepList (some r) (i + 1)
        { st with runtime_variables := [] } with
    | (st', some e) => (st', some e)
    | (st', none) => runRows stepList more (i + 1) st'

/-- `run_scenario(scenario_steps, data_file_path)`.  Reading and parsing the
CSV file is outside the model: `rows = some rs` stands for an existing data
file whose parsed rows are `rs`, `rows = none` for no data file.  The store
is cleared up front (`self.runtime_variables.clear()` — `initVars`, the
store left over from a previous run on the same runner, is discarded), the
trace starts empty, and the `finally` block computes the summary counts
from the recorded trace whether or not an error propagated (a propagated
error additionally marks the summary `Failure` and is re-raised). -/
def run_scenario (stepList : List Step) (initVars : List (String × String))
    (rows : Option (List (List (String × String)))) (w : World) :
    RunResults × Option RunError :=
  let _ := initVars
  let st0 : RunState := { runtime_variables := [], trace := [], world := w }
  let dataIterations := match rows with | some rs => rs.length | none => 1
  let res :=
    match rows with
    | some rs => runRows stepList rs 0 st0
    | none => execute_steps stepList none 1 st0
  let st1 := res.1
  let status := match res.2 with | none => "Success" | some _ => "Failure"
  ({ summary :=
      { total_steps := st1.trace.length,
        passed_steps := (st1.trace.filter (fun r => r.status = "success")).length,
        failed_steps := (st1.trace.filter (fun r => r.status = "failure")).length,
        status := status,
        data_iterations := dataIterations },
     steps := st1.trace }, res.2)

/-- the runner state a retry loop ended in, success or not. -/
def AttemptsResult.state : AttemptsResult → RunState
  | .succeeded st => st
  | .exhausted st _ => st

/-- what the interpreter guarantees about every record it appends during one
call with iteration number `itn`: a two-valued status and that iteration tag. -/
def GoodRec (itn : Nat) (r : StepResult) : Prop :=
  (r.status = "success" ∨ r.status = "failure") ∧ r.iteration = itn

/-- `st'` extends `st` by appending zero or more well-formed records for
iteration `itn`: the trace is append-only. -/
def TraceExt (itn : Nat) (st st' : RunState) : Prop :=
  ∃ ext, st'.trace = st.trace ++ ext ∧ ∀ r ∈ ext, GoodRec itn r

/-- a sample element descriptor (a title-only level). -/
def elA : ElementProps := { title := "A" }

/-- a sample click action with the default (`stop`) error policy. -/
def clickA : Step := { stype := "action", action := "click", path := [elA] }

/-- a sample click action with `Retry{2}`. -/
def clickRetry2 : Step :=
  { stype := "action", action := "click", path := [elA],
    onError := some { method := "retry", retries := some 2 } }

/-- a `try_catch_start` marker. -/
def tryS : Step := { stype := "control", control_type := "try_catch_start" }

/-- a `catch_separator` marker. -/
def catchS : Step := { stype := "control", control_type := "catch_separator" }

/-- a `try_catch_end` marker. -/
def tryE : Step := { stype := "control", control_type := "try_catch_end" }

/-- an `if_condition` step whose condition type is `element_vanishes` (a
valid Condition type per the data model, but one `_check_condition` never
actually checks). -/
def ifVanish : Step :=
  { stype := "control", control_type := "if_condition",
    condition := { ctype := "element_vanishes", target := some [("title", "X")] } }

/-- an `else` marker. -/
def elseS : Step := { stype := "control", control_type := "else" }

/-- an `end_if` marker. -/
def ifE : Step := { stype := "control", control_type := "end_if" }

/-- a `get_text` action storing into variable `v`. -/
def getTextV : Step :=
  { stype := "action", action := "get_text", path := [elA],
    params := [("variable_name", "v")] }

/-- a control step bearing the given keyword (`step.get("type") == "control"`
and `step.get("control_type") == kw`), the shape the scanners test for. -/
def IsKw (s : Step) (kw : String) : Prop :=
  s.stype = "control" ∧ s.control_type = kw

instance instDecidableIsKw (s : Step) (kw : String) : Decidable (IsKw s kw) :=
  inferInstanceAs (Decidable (_ ∧ _))

/-- well-formed nesting with respect to one opener/closer keyword pair: the
segment contains no unmatched opener or closer of that pair; every opener
starts a properly nested block ended by its own closer. -/
inductive Balanced (a b : String) : List Step → Prop where
  | nil : Balanced a b []
  | other {s : Step} {t : List Step} :
      ¬ IsKw s a → ¬ IsKw s b → Balanced a b t → Balanced a b (s :: t)
  | block {s e : Step} {body t : List Step} :
      IsKw s a → IsKw e b → Balanced a b body → Balanced a b t →
      Balanced a b (s :: (body ++ e :: t))

/-- like `Balanced`, additionally forbidding the separator keyword `c` at
the top nesting level (nested blocks may still hold separators of their
own, which belong to them). -/
inductive NoSep (a b c : String) : List Step → Prop where
  | nil : NoSep a b c []
  | other {s : Step} {t : List Step} :
      ¬ IsKw s a → ¬ IsKw s b → ¬ IsKw s c → NoSep a b c t →
      NoSep a b c (s :: t)
  | block {s e : Step} {body t : List Step} :
      IsKw s a → IsKw e b → Balanced a b body → NoSep a b c t →
      NoSep a b c (s :: (body ++ e :: t))

theorem fmeGo_skip (a b : String) (hab : a ≠ b) {l : List Step}
    (hl : Balanced a b l) :
    ∀ (rest : List Step) (i d : Nat), 1 ≤ d →
      fmeGo a b (l ++ rest) i d = fmeGo a b rest (i + l.length) d := by
  induction hl with
  | nil => intro rest i d _; simp
  | other hna hnb hbal ih =>
    rename_i s t
    intro rest i d hd
    simp only [List.cons_append, fmeGo, List.append_eq]
    have hidx : i + 1 + t.length = i + (s :: t).length := by
      simp only [List.length_cons]; omega
    by_cases hty : s.stype = "control"
    · have hca : ¬ s.control_type = a := fun h => hna ⟨hty, h⟩
      have hcb : ¬ s.control_type = b := fun h => hnb ⟨hty, h⟩
      rw [if_pos hty, if_neg hca, if_neg hcb,
        if_neg (show ¬ d = 0 by omega), ih rest (i + 1) d hd, hidx]
    · rw [if_neg hty, ih rest (i + 1) d hd, hidx]
  | block hs he hbodyBal htBal ihbody iht =>
    rename_i s e body t
    intro rest i d hd
    obtain ⟨hsty, hsct⟩ := hs
    obtain ⟨hety, hect⟩ := he
    have hshape : (s :: (body ++ e :: t)) ++ rest = s :: (body ++ e :: (t ++ rest)) := by
      simp
    rw [hshape]
    simp only [fmeGo, List.append_eq]
    rw [if_pos hsty, if_pos hsct, if_neg (show ¬ d + 1 = 0 by omega),
      ihbody (e :: (t ++ rest)) (i + 1) (d + 1) (by omega)]
    simp only [fmeGo]
    have hea : ¬ e.control_type = a := by rw [hect]; exact fun h => hab h.symm
    rw [if_pos hety, if_neg hea, if_pos hect,
      if_neg (show ¬ d + 1 - 1 = 0 by omega),
      iht rest (i + 1 + body.length + 1) (d + 1 - 1) (by omega)]
    have hidx : i + 1 + body.length + 1 + t.length = i + (s :: (body ++ e :: t)).length := by
      simp only [List.length_cons, List.length_append]; omega
    have hda : d + 1 - 1 = d := by omega
    rw [hidx, hda]

theorem sepGo_skip_deep (a b c : String) (hab : a ≠ b) {l : List Step}
    (hl : Balanced a b l) :
    ∀ (rest : List Step) (i d : Nat), 2 ≤ d →
      sepGo a b c (l ++ rest) i d = sepGo a b c rest (i + l.length) d := by
  induction hl with
  | nil => intro rest i d _; simp
  | other hna hnb hbal ih =>
    rename_i s t
    intro rest i d hd
    simp only [List.cons_append, sepGo, List.append_eq]
    have hidx : i + 1 + t.length = i + (s :: t).length := by
      simp only [List.length_cons]; omega
    by_cases hty : s.stype = "control"
    · have hca : ¬ s.control_type = a := fun h => hna ⟨hty, h⟩
      have hcb : ¬ s.control_type = b := fun h => hnb ⟨hty, h⟩
      rw [if_pos hty, if_neg hca, if_neg hcb,
        if_neg (show ¬ d = 0 by omega),
        if_neg (show ¬ (d = 1 ∧ s.control_type = c) from fun hx => by omega),
        ih rest (i + 1) d hd, hidx]
    · rw [if_neg hty, ih rest (i + 1) d hd, hidx]
  | block hs he hbodyBal htBal ihbody iht =>
    rename_i s e body t
    intro rest i d hd
    obtain ⟨hsty, hsct⟩ := hs
    obtain ⟨hety, hect⟩ := he
    have hshape : (s :: (body ++ e :: t)) ++ rest = s :: (body ++ e :: (t ++ rest)) := by
      simp
    rw [hshape]
    simp only [sepGo, List.append_eq]
    rw [if_pos hsty, if_pos hsct, if_neg (show ¬ d + 1 = 0 by omega),
      if_neg (show ¬ (d + 1 = 1 ∧ s.control_type = c) from fun hx => by omega),
      ihbody (e :: (t ++ rest)) (i + 1) (d + 1) (by omega)]
    simp only [sepGo]
    have hea : ¬ e.control_type = a := by rw [hect]; exact fun h => hab h.symm
    rw [if_pos hety, if_neg hea, if_pos hect,
      if_neg (show ¬ d + 1 - 1 = 0 by omega),
      if_neg (show ¬ (d + 1 - 1 = 1 ∧ e.control_type = c) from fun hx => by omega),
      iht rest (i + 1 + body.length + 1) (d + 1 - 1) (by omega)]
    have hidx : i + 1 + body.length + 1 + t.length = i + (s :: (body ++ e :: t)).length := by
      simp only [List.length_cons, List.length_append]; omega
    have hda : d + 1 - 1 = d := by omega
    rw [hidx, hda]

theorem sepGo_skip_nosep (a b c : String) (hab : a ≠ b) (hbc : b ≠ c)
    {l : List Step} (hl : NoSep a b c l) :
    ∀ (rest : List Step) (i : Nat),
      sepGo a b c (l ++ rest) i 1 = sepGo a b c rest (i + l.length) 1 := by
  induction hl with
  | nil => intro rest i; simp
  | other hna hnb hnc hns ih =>
    rename_i s t
    intro rest i
    simp only [List.cons_append, sepGo, List.append_eq]
    have hidx : i + 1 + t.length = i + (s :: t).length := by
      simp only [List.length_cons]; omega
    by_cases hty : s.stype = "control"
    · have hca : ¬ s.control_type = a := fun h => hna ⟨hty, h⟩
      have hcb : ¬ s.control_type = b := fun h => hnb ⟨hty, h⟩
      have hcc : ¬ s.control_type = c := fun h => hnc ⟨hty, h⟩
      rw [if_pos hty, if_neg hca, if_neg hcb,
        if_neg (show ¬ (1 : Nat) = 0 by omega),
        if_neg (show ¬ ((1 : Nat) = 1 ∧ s.control_type = c) from fun hx => hcc hx.2),
        ih rest (i + 1), hidx]
    · rw [if_neg hty, ih rest (i + 1), hidx]
  | block hs he hbodyBal hns iht =>
    rename_i s e body t
    intro rest i
    obtain ⟨hsty, hsct⟩ := hs
    obtain ⟨hety, hect⟩ := he
    have hshape : (s :: (body ++ e :: t)) ++ rest = s :: (body ++ e :: (t ++ rest)) := by
      simp
    rw [hshape]
    simp only [sepGo, List.append_eq]
    rw [if_pos hsty, if_pos hsct,
      if_neg (show ¬ (1 : Nat) + 1 = 0 by omega),
      if_neg (show ¬ ((1 : Nat) + 1 = 1 ∧ s.control_type = c) from fun hx => by omega)]
    rw [sepGo_skip_deep a b c hab hbodyBal (e :: (t ++ rest)) (i + 1) 2 (by omega)]
    simp only [sepGo]
    have hea : ¬ e.control_type = a := by rw [hect]; exact fun h => hab h.symm
    have hec : ¬ ((2 : Nat) - 1 = 1 ∧ e.control_type = c) := by
      rw [hect]; exact fun hx => hbc hx.2
    rw [if_pos hety, if_neg hea, if_pos hect,
      if_neg (show ¬ (2 : Nat) - 1 = 0 by omega), if_neg hec,
      iht rest (i + 1 + body.length + 1)]
    have hidx : i + 1 + body.length + 1 + t.length = i + (s :: (body ++ e :: t)).length := by
      simp only [List.length_cons, List.length_append]; omega
    rw [hidx]

theorem fmeGo_close (a b : String) (hab : a ≠ b) (e : Step) (post : List Step)
    (he : IsKw e b) (i d : Nat) (hd : d = 1) :
    fmeGo a b (e :: post) i d = some i := by
  obtain ⟨hety, hect⟩ := he
  have hea : ¬ e.control_type = a := by rw [hect]; exact fun h => hab h.symm
  subst hd
  simp only [fmeGo]
  rw [if_pos hety, if_neg hea, if_pos hect, if_pos (by omega)]

theorem sepGo_close (a b c : String) (hab : a ≠ b) (e : Step) (post : List Step)
    (he : IsKw e b) (i : Nat) :
    sepGo a b c (e :: post) i 1 = .ok (none, i) := by
  obtain ⟨hety, hect⟩ := he
  have hea : ¬ e.control_type = a := by rw [hect]; exact fun h => hab h.symm
  simp only [sepGo]
  rw [if_pos hety, if_neg hea, if_pos hect, if_pos (by omega)]

/-- `drop (pre.length + 1)` over `pre ++ s :: tail` exposes `tail`. -/
theorem drop_pre_cons (pre tail : List Step) (s : Step) :
    (pre ++ s :: tail).drop (pre.length + 1) = tail := by
  rw [List.append_cons, List.drop_left']
  simp

/-- `_find_matching_end` is correct on a well-formed block: for an opener at
index `pre.length` whose body is balanced and is ended by `e`, the scan
returns exactly the index of `e`, under arbitrary nesting inside `body`. -/
theorem find_matching_end_spec (a b : String) (hab : a ≠ b)
    (pre body post : List Step) (s e : Step)
    (hs : IsKw s a) (he : IsKw e b) (hbody : Balanced a b body) :
    find_matching_end (pre ++ s :: (body ++ e :: post)) pre.length a b =
      .ok (pre.length + 1 + body.length) := by
  unfold find_matching_end
  rw [drop_pre_cons, fmeGo_skip a b hab hbody (e :: post) (pre.length + 1) 1 (by omega),
    fmeGo_close a b hab e post he _ 1 rfl]

/-- `_find_matching_end` raises a `SyntaxError` when the opener at index
`pre.length` has no matching closer: the remainder of the list is balanced
with no trailing closer. -/
theorem find_matching_end_unmatched (a b : String) (hab : a ≠ b)
    (pre body : List Step) (s : Step)
    (hs : IsKw s a) (hbody : Balanced a b body) :
    find_matching_end (pre ++ s :: body) pre.length a b =
      .error (.structuralError ("No matching " ++ b)) := by
  unfold find_matching_end
  rw [drop_pre_cons]
  have hb : body = body ++ [] := by simp
  rw [hb, fmeGo_skip a b hab hbody [] (pre.length + 1) 1 (by omega)]
  simp [fmeGo]

/-- the separator scan with no top-level separator in the body: it finds
the closer and reports no separator. -/
theorem sepGo_spec_nosep (a b c : String) (hab : a ≠ b) (hbc : b ≠ c)
    (body post : List Step) (e : Step) (he : IsKw e b)
    (hbody : NoSep a b c body) (i : Nat) :
    sepGo a b c (body ++ e :: post) i 1 = .ok (none, i + body.length) := by
  rw [sepGo_skip_nosep a b c hab hbc hbody (e :: post) i,
    sepGo_close a b c hab e post he _]

/-- the separator scan with a single top-level separator: it reports the
separator index and the closer index. -/
theorem sepGo_spec_sep (a b c : String) (hab : a ≠ b) (hbc : b ≠ c)
    (hca : ¬ c = a) (hcb : ¬ c = b)
    (b1 b2 post : List Step) (sep e : Step)
    (hsep : IsKw sep c) (he : IsKw e b)
    (h1 : NoSep a b c b1) (h2 : NoSep a b c b2) (i : Nat) :
    sepGo a b c (b1 ++ sep :: (b2 ++ e :: post)) i 1 =
      .ok (some (i + b1.length), i + b1.length + 1 + b2.length) := by
  rw [sepGo_skip_nosep a b c hab hbc h1 (sep :: (b2 ++ e :: post)) i]
  obtain ⟨hsty, hsct⟩ := hsep
  have hna : ¬ sep.control_type = a := by rw [hsct]; exact hca
  have hnb : ¬ sep.control_type = b := by rw [hsct]; exact hcb
  simp only [sepGo]
  rw [if_pos hsty, if_neg hna, if_neg hnb,
    if_neg (show ¬ (1 : Nat) = 0 by omega),
    if_pos (show (1 : Nat) = 1 ∧ sep.control_type = c from ⟨rfl, hsct⟩),
    sepGo_spec_nosep a b c hab hbc b2 post e he h2 (i + b1.length + 1)]

/-- the separator scan raises a `SyntaxError` when no closer follows. -/
theorem sepGo_spec_unmatched (a b c : String) (hab : a ≠ b) (hbc : b ≠ c)
    (body : List Step) (hbody : NoSep a b c body) (i : Nat) :
    sepGo a b c body i 1 = .error (.structuralError ("No matching " ++ b)) := by
  have hb : body = body ++ [] := by simp
  rw [hb, sepGo_skip_nosep a b c hab hbc hbody [] i]
  simp [sepGo]

theorem execute_steps_nil (row : Option (List (String × String))) (itn : Nat)
    (st : RunState) : execute_steps [] row itn st = (st, none) := by
  simp [execute_steps]

/-- a failing liveness probe aborts the interpreter before the head step. -/
theorem execute_steps_cons_dead (s : Step) (rest : List Step)
    (row : Option (List (String × String))) (itn : Nat) (st : RunState)
    (w : World) (halive : st.world.popAlive = (false, w)) :
    execute_steps (s :: rest) row itn st =
      ({ st with world := w }, some .targetAppClosed) := by
  simp only [execute_steps, check_app_is_alive, halive]
  rfl

/-- unfolding for an `action` head with the surface alive. -/
theorem execute_steps_cons_action (s : Step) (rest : List Step)
    (row : Option (List (String × String))) (itn : Nat) (st : RunState)
    (w : World) (halive : st.world.popAlive = (true, w))
    (hty : s.stype = "action") :
    execute_steps (s :: rest) row itn st =
      match execute_action s row itn { st with world := w } with
      | (st', some e) => (st', some e)
      | (st', none) => execute_steps rest row itn st' := by
  simp only [execute_steps, check_app_is_alive, halive, hty]
  rfl

theorem traceExt_rfl (itn : Nat) (st : RunState) : TraceExt itn st st :=
  ⟨[], by simp, by simp⟩

theorem traceExt_trans {itn : Nat} {st1 st2 st3 : RunState}
    (h12 : TraceExt itn st1 st2) (h23 : TraceExt itn st2 st3) :
    TraceExt itn st1 st3 := by
  obtain ⟨e1, he1, hg1⟩ := h12
  obtain ⟨e2, he2, hg2⟩ := h23
  refine ⟨e1 ++ e2, ?_, ?_⟩
  · rw [he2, he1, List.append_assoc]
  · intro r hr
    rcases List.mem_append.mp hr with h | h
    exacts [hg1 r h, hg2 r h]

theorem traceExt_world (itn : Nat) (st : RunState) (w : World) :
    TraceExt itn st { st with world := w } :=
  ⟨[], by simp, by simp⟩

theorem traceExt_record (itn : Nat) (st : RunState) (step : Step)
    (status details : String) (hs : status = "success" ∨ status = "failure") :
    TraceExt itn st (record_step_result step status itn details st) := by
  refine ⟨[mkStepRecord step status itn details], rfl, ?_⟩
  intro r hr
  simp at hr
  subst hr
  exact ⟨hs, rfl⟩

/-- one attempt of an action never touches the recorded trace (it only
consumes surface outcomes and may write a runtime variable). -/
theorem attemptAction_trace (step : Step) (row : Option (List (String × String)))
    (st : RunState) : ((attemptAction step row st).1).trace = st.trace := by
  simp only [attemptAction]
  repeat' split
  all_goals rfl

/-- the whole retry loop never touches the recorded trace. -/
theorem attemptLoop_trace (step : Step) (row : Option (List (String × String))) :
    ∀ (n : Nat) (last : Option RunError) (st : RunState),
      ((attemptLoop step row n last st).state).trace = st.trace := by
  intro n
  induction n with
  | zero => intro last st; rfl
  | succ k ih =>
    intro last st
    simp only [attemptLoop]
    cases hat : attemptAction step row st with
    | mk st' e? =>
      have htr : st'.trace = st.trace := by
        have := attemptAction_trace step row st
        rw [hat] at this
        exact this
      cases e? with
      | none => simpa [AttemptsResult.state] using htr
      | some e => rw [ih (some e) st', htr]

/-- `_execute_action` appends exactly one record — the single `StepResult`
of the logical step — whatever the policy and outcome. -/
theorem execute_action_one_record (step : Step)
    (row : Option (List (String × String))) (itn : Nat) (st : RunState) :
    ∃ rec, ((execute_action step row itn st).1).trace = st.trace ++ [rec] ∧
      GoodRec itn rec := by
  unfold execute_action
  cases hal : attemptLoop step row (attemptsOf step) none st with
  | succeeded st' =>
    have htr : st'.trace = st.trace := by
      have := attemptLoop_trace step row (attemptsOf step) none st
      rw [hal] at this
      exact this
    refine ⟨mkStepRecord step "success" itn "", ?_, Or.inl rfl, rfl⟩
    simp [record_step_result, htr]
  | exhausted st' last =>
    have htr : st'.trace = st.trace := by
      have := attemptLoop_trace step row (attemptsOf step) none st
      rw [hal] at this
      exact this
    dsimp only
    split
    all_goals
      refine ⟨mkStepRecord step "failure" itn (errDetails last), ?_, Or.inr rfl, rfl⟩
    all_goals simp [record_step_result, htr]

theorem execute_action_traceExt (step : Step)
    (row : Option (List (String × String))) (itn : Nat) (st : RunState) :
    TraceExt itn st (execute_action step row itn st).1 := by
  obtain ⟨rec, hr, hg⟩ := execute_action_one_record step row itn st
  exact ⟨[rec], hr, by intro r h; simp at h; subst h; exact hg⟩

/-- `_execute_wait` appends exactly one record. -/
theorem execute_wait_one_record (step : Step)
    (row : Option (List (String × String))) (itn : Nat) (st : RunState) :
    ∃ rec, ((execute_wait step row itn st).1).trace = st.trace ++ [rec] ∧
      GoodRec itn rec := by
  unfold execute_wait
  repeat' split
  all_goals first
  | exact ⟨_, rfl, Or.inl rfl, rfl⟩
  | exact ⟨_, rfl, Or.inr rfl, rfl⟩

theorem execute_wait_traceExt (step : Step)
    (row : Option (List (String × String))) (itn : Nat) (st : RunState) :
    TraceExt itn st (execute_wait step row itn st).1 := by
  obtain ⟨rec, hr, hg⟩ := execute_wait_one_record step row itn st
  exact ⟨[rec], hr, by intro r h; simp at h; subst h; exact hg⟩

theorem execute_steps_cons_loop (s : Step) (rest : List Step)
    (row : Option (List (String × String))) (itn : Nat) (st : RunState)
    (w : World) (endIdx : Nat) (halive : st.world.popAlive = (true, w))
    (hty : s.stype = "control") (hct : s.control_type = "start_loop")
    (hscan : find_matching_end (s :: rest) 0 "start_loop" "end_loop" = .ok endIdx) :
    execute_steps (s :: rest) row itn st =
      match execute_loop (rest.take (endIdx - 1)) row itn s.iterations
          { st with world := w } with
      | (st', some e) => (st', some e)
      | (st', none) => execute_steps (rest.drop endIdx) row itn st' := by
  simp only [execute_steps, check_app_is_alive, halive, hty, hct, hscan]
  rfl

theorem execute_steps_cons_loop_err (s : Step) (rest : List Step)
    (row : Option (List (String × String))) (itn : Nat) (st : RunState)
    (w : World) (e : RunError) (halive : st.world.popAlive = (true, w))
    (hty : s.stype = "control") (hct : s.control_type = "start_loop")
    (hscan : find_matching_end (s :: rest) 0 "start_loop" "end_loop" = .error e) :
    execute_steps (s :: rest) row itn st = ({ st with world := w }, some e) := by
  simp only [execute_steps, check_app_is_alive, halive, hty, hct, hscan]
  rfl

/-- unfolding for `if_condition` with a false condition and an `else` arm:
the else-body runs, then execution resumes after `end_if`. -/
theorem execute_steps_cons_if_false_else (s : Step) (rest : List Step)
    (row : Option (List (String × String))) (itn : Nat) (st : RunState)
    (w w' : World) (eIdx endIdx : Nat)
    (halive : st.world.popAlive = (true, w))
    (hty : s.stype = "control") (hct : s.control_type = "if_condition")
    (hscan : find_else_or_end_if (s :: rest) 0 = .ok (some eIdx, endIdx))
    (hcond : check_condition s.condition st.runtime_variables w = (w', .ok false)) :
    execute_steps (s :: rest) row itn st =
      match execute_steps ((rest.drop eIdx).take (endIdx - eIdx - 1)) row itn
          { st with world := w' } with
      | (st', some e) => (st', some e)
      | (st', none) => execute_steps (rest.drop endIdx) row itn st' := by
  have h0 : check_app_is_alive st.world = (w, none) := by
    simp [check_app_is_alive, halive]
  simp only [execute_steps, h0, hty, hct, hscan, hcond]
  simp

/-- unfolding for `if_condition` with a false condition and no `else` arm. -/
theorem execute_steps_cons_if_false_noelse (s : Step) (rest : List Step)
    (row : Option (List (String × String))) (itn : Nat) (st : RunState)
    (w w' : World) (endIdx : Nat)
    (halive : st.world.popAlive = (true, w))
    (hty : s.stype = "control") (hct : s.control_type = "if_condition")
    (hscan : find_else_or_end_if (s :: rest) 0 = .ok (none, endIdx))
    (hcond : check_condition s.condition st.runtime_variables w = (w', .ok false)) :
    execute_steps (s :: rest) row itn st =
      execute_steps (rest.drop endIdx) row itn { st with world := w' } := by
  have h0 : check_app_is_alive st.world = (w, none) := by
    simp [check_app_is_alive, halive]
  simp only [execute_steps, h0, hty, hct, hscan, hcond]
  simp

/-- unfolding for `if_condition` with a true condition and an `else` arm. -/
theorem execute_steps_cons_if_true_else (s : Step) (rest : List Step)
    (row : Option (List (String × String))) (itn : Nat) (st : RunState)
    (w w' : World) (eIdx endIdx : Nat)
    (halive : st.world.popAlive = (true, w))
    (hty : s.stype = "control") (hct : s.control_type = "if_condition")
    (hscan : find_else_or_end_if (s :: rest) 0 = .ok (some eIdx, endIdx))
    (hcond : check_condition s.condition st.runtime_variables w = (w', .ok true)) :
    execute_steps (s :: rest) row itn st =
      match execute_steps (rest.take (eIdx - 1)) row itn { st with world := w' } with
      | (st', some e) => (st', some e)
      | (st', none) => execute_steps (rest.drop endIdx) row itn st' := by
  have h0 : check_app_is_alive st.world = (w, none) := by
    simp [check_app_is_alive, halive]
  simp only [execute_steps, h0, hty, hct, hscan, hcond]
  simp

/-- unfolding for `if_condition` with a true condition and no `else` arm. -/
theorem execute_steps_cons_if_true_noelse (s : Step) (rest : List Step)
    (row : Option (List (String × String))) (itn : Nat) (st : RunState)
    (w w' : World) (endIdx : Nat)
    (halive : st.world.popAlive = (true, w))
    (hty : s.stype = "control") (hct : s.control_type = "if_condition")
    (hscan : find_else_or_end_if (s :: rest) 0 = .ok (none, endIdx))
    (hcond : check_condition s.condition st.runtime_variables w = (w', .ok true)) :
    execute_steps (s :: rest) row itn st =
      match execute_steps (rest.take (endIdx - 1)) row itn { st with world := w' } with
      | (st', some e) => (st', some e)
      | (st', none) => execute_steps (rest.drop endIdx) row itn st' := by
  have h0 : check_app_is_alive st.world = (w, none) := by
    simp [check_app_is_alive, halive]
  simp only [execute_steps, h0, hty, hct, hscan, hcond]
  simp

theorem execute_steps_cons_if_scan_err (s : Step) (rest : List Step)
    (row : Option (List (String × String))) (itn : Nat) (st : RunState)
    (w : World) (e : RunError) (halive : st.world.popAlive = (true, w))
    (hty : s.stype = "control") (hct : s.control_type = "if_condition")
    (hscan : find_else_or_end_if (s :: rest) 0 = .error e) :
    execute_steps (s :: rest) row itn st = ({ st with world := w }, some e) := by
  simp only [execute_steps, check_app_is_alive, halive, hty, hct, hscan]
  rfl

theorem execute_steps_cons_if_cond_err (s : Step) (rest : List Step)
    (row : Option (List (String × String))) (itn : Nat) (st : RunState)
    (w w' : World) (elseIdx? : Option Nat) (endIdx : Nat) (e : RunError)
    (halive : st.world.popAlive = (true, w))
    (hty : s.stype = "control") (hct : s.control_type = "if_condition")
    (hscan : find_else_or_end_if (s :: rest) 0 = .ok (elseIdx?, endIdx))
    (hcond : check_condition s.condition st.runtime_variables w = (w', .error e)) :
    execute_steps (s :: rest) row itn st = ({ st with world := w' }, some e) := by
  have h0 : check_app_is_alive st.world = (w, none) := by
    simp [check_app_is_alive, halive]
  simp only [execute_steps, h0, hty, hct, hscan, hcond]
  simp

/-- unfolding for a `try_catch_start` head with no `catch_separator`: any
error from the try-body is swallowed and execution resumes after the end
marker from the state the body reached. -/
theorem execute_steps_cons_try_nocatch (s : Step) (rest : List Step)
    (row : Option (List (String × String))) (itn : Nat) (st : RunState)
    (w : World) (endIdx : Nat)
    (halive : st.world.popAlive = (true, w))
    (hty : s.stype = "control") (hct : s.control_type = "try_catch_start")
    (hscan : find_catch_or_end_try (s :: rest) 0 = .ok (none, endIdx)) :
    execute_steps (s :: rest) row itn st =
      execute_steps (rest.drop endIdx) row itn
        (execute_steps (rest.take (endIdx - 1)) row itn { st with world := w }).1 := by
  have h0 : check_app_is_alive st.world = (w, none) := by
    simp [check_app_is_alive, halive]
  simp only [execute_steps, h0, hty, hct, hscan]
  simp
  cases execute_steps (rest.take (endIdx - 1)) row itn { st with world := w } with
  | mk st1 e1 => cases e1 <;> rfl

/-- unfolding for `try_catch_start` with a catch arm and a successful
try-body: the catch body is skipped. -/
theorem execute_steps_cons_try_catch_ok (s : Step) (rest : List Step)
    (row : Option (List (String × String))) (itn : Nat) (st : RunState)
    (w : World) (cIdx endIdx : Nat) (st1 : RunState)
    (halive : st.world.popAlive = (true, w))
    (hty : s.stype = "control") (hct : s.control_type = "try_catch_start")
    (hscan : find_catch_or_end_try (s :: rest) 0 = .ok (some cIdx, endIdx))
    (htry : execute_steps (rest.take (cIdx - 1)) row itn { st with world := w } =
      (st1, none)) :
    execute_steps (s :: rest) row itn st =
      execute_steps (rest.drop endIdx) row itn st1 := by
  have h0 : check_app_is_alive st.world = (w, none) := by
    simp [check_app_is_alive, halive]
  simp only [execute_steps, h0, hty, hct, hscan, htry]
  simp

/-- unfolding for `try_catch_start` with a catch arm and a failing try-body:
the error is swallowed and the catch body runs, itself able to propagate. -/
theorem execute_steps_cons_try_catch_err (s : Step) (rest : List Step)
    (row : Option (List (String × String))) (itn : Nat) (st : RunState)
    (w : World) (cIdx endIdx : Nat) (st1 : RunState) (e : RunError)
    (halive : st.world.popAlive = (true, w))
    (hty : s.stype = "control") (hct : s.control_type = "try_catch_start")
    (hscan : find_catch_or_end_try (s :: rest) 0 = .ok (some cIdx, endIdx))
    (htry : execute_steps (rest.take (cIdx - 1)) row itn { st with world := w } =
      (st1, some e)) :
    execute_steps (s :: rest) row itn st =
      match execute_steps ((rest.drop cIdx).take (endIdx - cIdx - 1)) row itn st1 with
      | (st2, some e2) => (st2, some e2)
      | (st2, none) => execute_steps (rest.drop endIdx) row itn st2 := by
  have h0 : check_app_is_alive st.world = (w, none) := by
    simp [check_app_is_alive, halive]
  simp only [execute_steps, h0, hty, hct, hscan, htry]
  simp

theorem execute_steps_cons_try_err (s : Step) (rest : List Step)
    (row : Option (List (String × String))) (itn : Nat) (st : RunState)
    (w : World) (e : RunError) (halive : st.world.popAlive = (true, w))
    (hty : s.stype = "control") (hct : s.control_type = "try_catch_start")
    (hscan : find_catch_or_end_try (s :: rest) 0 = .error e) :
    execute_steps (s :: rest) row itn st = ({ st with world := w }, some e) := by
  simp only [execute_steps, check_app_is_alive, halive, hty, hct, hscan]
  rfl

theorem execute_steps_cons_wait (s : Step) (rest : List Step)
    (row : Option (List (String × String))) (itn : Nat) (st : RunState)
    (w : World) (halive : st.world.popAlive = (true, w))
    (hty : s.stype = "control") (hct : s.control_type = "wait_for_condition") :
    execute_steps (s :: rest) row itn st =
      match execute_wait s row itn { st with world := w } with
      | (st', some e) => (st', some e)
      | (st', none) => execute_steps rest row itn st' := by
  simp only [execute_steps, check_app_is_alive, halive, hty, hct]
  rfl

theorem execute_steps_cons_ctrl_other (s : Step) (rest : List Step)
    (row : Option (List (String × String))) (itn : Nat) (st : RunState)
    (w : World) (halive : st.world.popAlive = (true, w))
    (hty : s.stype = "control")
    (h1 : ¬ s.control_type = "start_loop")
    (h2 : ¬ s.control_type = "if_condition")
    (h3 : ¬ s.control_type = "try_catch_start")
    (h4 : ¬ s.control_type = "wait_for_condition") :
    execute_steps (s :: rest) row itn st =
      execute_steps rest row itn { st with world := w } := by
  have h0 : check_app_is_alive st.world = (w, none) := by
    simp [check_app_is_alive, halive]
  simp only [execute_steps, h0, hty]
  simp [h1, h2, h3, h4]

theorem execute_steps_cons_other (s : Step) (rest : List Step)
    (row : Option (List (String × String))) (itn : Nat) (st : RunState)
    (w : World) (halive : st.world.popAlive = (true, w))
    (hty1 : ¬ s.stype = "action") (hty2 : ¬ s.stype = "control") :
    execute_steps (s :: rest) row itn st =
      execute_steps rest row itn { st with world := w } := by
  have h0 : check_app_is_alive st.world = (w, none) := by
    simp [check_app_is_alive, halive]
  simp only [execute_steps, h0]
  simp [hty1, hty2]

theorem traceExt_seq (itn : Nat) (st stMid : RunState) (bodyX contX : List Step)
    (row : Option (List (String × String)))
    (hmid : TraceExt itn st stMid)
    (hbody : ∀ st0, TraceExt itn st0 (execute_steps bodyX row itn st0).1)
    (hcont : ∀ st0, TraceExt itn st0 (execute_steps contX row itn st0).1) :
    TraceExt itn st (match execute_steps bodyX row itn stMid with
      | (st', some e) => (st', some e)
      | (st', none) => execute_steps contX row itn st').1 := by
  cases hb : execute_steps bodyX row itn stMid with
  | mk st' e? =>
    have hmb := hbody stMid
    rw [hb] at hmb
    have h1 : TraceExt itn st st' := traceExt_trans hmid hmb
    cases e? with
    | some e => exact h1
    | none => exact traceExt_trans h1 (hcont st')

theorem execute_loop_traceExt (body : List Step)
    (row : Option (List (String × String))) (itn : Nat)
    (hbody : ∀ st, TraceExt itn st (execute_steps body row itn st).1) :
    ∀ (cnt : Nat) (st : RunState),
      TraceExt itn st (execute_loop body row itn cnt st).1 := by
  intro cnt
  induction cnt with
  | zero =>
    intro st
    simpa [execute_loop] using traceExt_rfl itn st
  | succ k ihk =>
    intro st
    simp only [execute_loop]
    cases hb : execute_steps body row itn st with
    | mk st' e? =>
      have hmb := hbody st
      rw [hb] at hmb
      have h1 : TraceExt itn st st' := hmb
      cases e? with
      | some e => exact h1
      | none => exact traceExt_trans h1 (ihk st')

/-- the recorded trace is append-only under the interpreter, and every
record it appends has a two-valued status and the current iteration
number. -/
theorem execute_steps_traceExt :
    ∀ (N : Nat) (l : List Step), l.length ≤ N →
      ∀ (row : Option (List (String × String))) (itn : Nat) (st : RunState),
        TraceExt itn st (execute_steps l row itn st).1 := by
  intro N
  induction N with
  | zero =>
    intro l hl row itn st
    have hnil : l = [] := by
      cases l with
      | nil => rfl
      | cons a t => simp at hl
    subst hnil
    simpa [execute_steps_nil] using traceExt_rfl itn st
  | succ n ihN =>
    intro l hl row itn st
    cases l with
    | nil => simpa [execute_steps_nil] using traceExt_rfl itn st
    | cons s rest =>
      have hrest : rest.length ≤ n := by
        simp only [List.length_cons] at hl; omega
      rcases hal : st.world.popAlive with ⟨b, w⟩
      cases b with
      | false =>
        rw [execute_steps_cons_dead s rest row itn st w hal]
        exact traceExt_world itn st w
      | true =>
        have hW : TraceExt itn st { st with world := w } := traceExt_world itn st w
        have hRest : ∀ st0, TraceExt itn st0 (execute_steps rest row itn st0).1 :=
          fun st0 => ihN rest hrest row itn st0
        have hTake : ∀ (k : Nat) (st0 : RunState),
            TraceExt itn st0 (execute_steps (rest.take k) row itn st0).1 :=
          fun k st0 => ihN (rest.take k) (by simp [List.length_take]; omega) row itn st0
        have hDrop : ∀ (k : Nat) (st0 : RunState),
            TraceExt itn st0 (execute_steps (rest.drop k) row itn st0).1 :=
          fun k st0 => ihN (rest.drop k) (by simp [List.length_drop]; omega) row itn st0
        have hDropTake : ∀ (k m : Nat) (st0 : RunState),
            TraceExt itn st0 (execute_steps ((rest.drop k).take m) row itn st0).1 :=
          fun k m st0 => ihN ((rest.drop k).take m)
            (by simp [List.length_take, List.length_drop]; omega) row itn st0
        by_cases hty : s.stype = "action"
        · rw [execute_steps_cons_action s rest row itn st w hal hty]
          cases hea : execute_action s row itn { st with world := w } with
          | mk st' e? =>
            have hma := execute_action_traceExt s row itn { st with world := w }
            rw [hea] at hma
            have h1 : TraceExt itn st st' := traceExt_trans hW hma
            cases e? with
            | some e => exact h1
            | none => exact traceExt_trans h1 (hRest st')
        · by_cases hty2 : s.stype = "control"
          · by_cases hc1 : s.control_type = "start_loop"
            · cases hscan : find_matching_end (s :: rest) 0 "start_loop" "end_loop" with
              | error e =>
                rw [execute_steps_cons_loop_err s rest row itn st w e hal hty2 hc1 hscan]
                exact hW
              | ok endIdx =>
                rw [execute_steps_cons_loop s rest row itn st w endIdx hal hty2 hc1 hscan]
                cases hloop : execute_loop (rest.take (endIdx - 1)) row itn s.iterations
                    { st with world := w } with
                | mk st' e? =>
                  have hml := execute_loop_traceExt (rest.take (endIdx - 1))
                    row itn (fun s0 => hTake (endIdx - 1) s0) s.iterations
                    { st with world := w }
                  rw [hloop] at hml
                  have h1 : TraceExt itn st st' := traceExt_trans hW hml
                  cases e? with
                  | some e => exact h1
                  | none => exact traceExt_trans h1 (hDrop endIdx st')
            · by_cases hc2 : s.control_type = "if_condition"
              · cases hscan : find_else_or_end_if (s :: rest) 0 with
                | error e =>
                  rw [execute_steps_cons_if_scan_err s rest row itn st w e hal hty2 hc2 hscan]
                  exact hW
                | ok p =>
                  obtain ⟨elseIdx?, endIdx⟩ := p
                  rcases hcond : check_condition s.condition st.runtime_variables w with ⟨w2, res⟩
                  cases res with
                  | error e =>
                    rw [execute_steps_cons_if_cond_err s rest row itn st w w2
                      elseIdx? endIdx e hal hty2 hc2 hscan hcond]
                    exact traceExt_world itn st w2
                  | ok bc =>
                    have hW2 : TraceExt itn st { st with world := w2 } :=
                      traceExt_world itn st w2
                    cases elseIdx? with
                    | some eIdx =>
                      cases bc with
                      | false =>
                        rw [execute_steps_cons_if_false_else s rest row itn st w w2
                          eIdx endIdx hal hty2 hc2 hscan hcond]
                        exact traceExt_seq itn st { st with world := w2 }
                          ((rest.drop eIdx).take (endIdx - eIdx - 1)) (rest.drop endIdx)
                          row hW2 (hDropTake eIdx (endIdx - eIdx - 1)) (hDrop endIdx)
                      | true =>
                        rw [execute_steps_cons_if_true_else s rest row itn st w w2
                          eIdx endIdx hal hty2 hc2 hscan hcond]
                        exact traceExt_seq itn st { st with world := w2 }
                          (rest.take (eIdx - 1)) (rest.drop endIdx)
                          row hW2 (hTake (eIdx - 1)) (hDrop endIdx)
                    | none =>
                      cases bc with
                      | false =>
                        rw [execute_steps_cons_if_false_noelse s rest row itn st w w2
                          endIdx hal hty2 hc2 hscan hcond]
                        exact traceExt_trans hW2 (hDrop endIdx _)
                      | true =>
                        rw [execute_steps_cons_if_true_noelse s rest row itn st w w2
                          endIdx hal hty2 hc2 hscan hcond]
                        exact traceExt_seq itn st { st with world := w2 }
                          (rest.take (endIdx - 1)) (rest.drop endIdx)
                          row hW2 (hTake (endIdx - 1)) (hDrop endIdx)
              · by_cases hc3 : s.control_type = "try_catch_start"
                · cases hscan : find_catch_or_end_try (s :: rest) 0 with
                  | error e =>
                    rw [execute_steps_cons_try_err s rest row itn st w e hal hty2 hc3 hscan]
                    exact hW
                  | ok p =>
                    obtain ⟨catchIdx?, endIdx⟩ := p
                    cases catchIdx? with
                    | none =>
                      rw [execute_steps_cons_try_nocatch s rest row itn st w endIdx
                        hal hty2 hc3 hscan]
                      have h1 : TraceExt itn st
                          (execute_steps (rest.take (endIdx - 1)) row itn
                            { st with world := w }).1 :=
                        traceExt_trans hW (hTake (endIdx - 1) _)
                      exact traceExt_trans h1 (hDrop endIdx _)
                    | some cIdx =>
                      cases htry : execute_steps (rest.take (cIdx - 1)) row itn
                          { st with world := w } with
                      | mk st1 e1? =>
                        have hmt := hTake (cIdx - 1) { st with world := w }
                        rw [htry] at hmt
                        have h1 : TraceExt itn st st1 := traceExt_trans hW hmt
                        cases e1? with
                        | none =>
                          rw [execute_steps_cons_try_catch_ok s rest row itn st w
                            cIdx endIdx st1 hal hty2 hc3 hscan htry]
                          exact traceExt_trans h1 (hDrop endIdx st1)
                        | some e =>
                          rw [execute_steps_cons_try_catch_err s rest row itn st w
                            cIdx endIdx st1 e hal hty2 hc3 hscan htry]
                          exact traceExt_seq itn st st1
                            ((rest.drop cIdx).take (endIdx - cIdx - 1)) (rest.drop endIdx)
                            row h1 (hDropTake cIdx (endIdx - cIdx - 1)) (hDrop endIdx)
                · by_cases hc4 : s.control_type = "wait_for_condition"
                  · rw [execute_steps_cons_wait s rest row itn st w hal hty2 hc4]
                    cases hwt : execute_wait s row itn { st with world := w } with
                    | mk st' e? =>
                      have hmw := execute_wait_traceExt s row itn { st with world := w }
                      rw [hwt] at hmw
                      have h1 : TraceExt itn st st' := traceExt_trans hW hmw
                      cases e? with
                      | some e => exact h1
                      | none => exact traceExt_trans h1 (hRest st')
                  · rw [execute_steps_cons_ctrl_other s rest row itn st w hal hty2
                      hc1 hc2 hc3 hc4]
                    exact traceExt_trans hW (hRest _)
          · rw [execute_steps_cons_other s rest row itn st w hal hty hty2]
            exact traceExt_trans hW (hRest _)

theorem count_two_valued :
    ∀ (l : List StepResult),
      (∀ r ∈ l, r.status = "success" ∨ r.status = "failure") →
      (l.filter (fun r => r.status = "success")).length +
        (l.filter (fun r => r.status = "failure")).length = l.length := by
  intro l
  induction l with
  | nil => intro _; simp
  | cons r t ih =>
    intro h
    have hr := h r (by simp)
    have ht : ∀ x ∈ t, x.status = "success" ∨ x.status = "failure" :=
      fun x hx => h x (by simp [hx])
    have hih := ih ht
    rcases hr with hs | hf
    · simp only [List.filter_cons, hs]
      simp
      omega
    · simp only [List.filter_cons, hf]
      simp
      omega

/-- the data-driven loop appends only well-formed records whose iteration
numbers lie in `i+1 .. i + rows.length`. -/
theorem runRows_trace (stepList : List Step) :
    ∀ (rows : List (List (String × String))) (i : Nat) (st : RunState),
      ∃ ext, ((runRows stepList rows i st).1).trace = st.trace ++ ext ∧
        ∀ r ∈ ext, (r.status = "success" ∨ r.status = "failure") ∧
          i + 1 ≤ r.iteration ∧ r.iteration ≤ i + rows.length := by
  intro rows
  induction rows with
  | nil =>
    intro i st
    exact ⟨[], by simp [runRows], by simp⟩
  | cons row more ih =>
    intro i st
    simp only [runRows]
    cases hx : execute_steps stepList (some row) (i + 1)
        { st with runtime_variables := [] } with
    | mk st' e? =>
      have hm := execute_steps_traceExt stepList.length stepList le_rfl
        (some row) (i + 1) { st with runtime_variables := [] }
      rw [hx] at hm
      obtain ⟨ext1, hext1, hg1⟩ := hm
      have hbound1 : ∀ r ∈ ext1, (r.status = "success" ∨ r.status = "failure") ∧
          i + 1 ≤ r.iteration ∧ r.iteration ≤ i + (row :: more).length := by
        intro r hr
        obtain ⟨h2, h3⟩ := hg1 r hr
        exact ⟨h2, by omega, by simp [List.length_cons]; omega⟩
      cases e? with
      | some e => exact ⟨ext1, hext1, hbound1⟩
      | none =>
        obtain ⟨ext2, hext2, hg2⟩ := ih (i + 1) st'
        refine ⟨ext1 ++ ext2, ?_, ?_⟩
        · rw [hext2, hext1, List.append_assoc]
        · intro r hr
          rcases List.mem_append.mp hr with h | h
          · exact hbound1 r h
          · obtain ⟨h2, h3, h4⟩ := hg2 r h
            exact ⟨h2, by omega, by simp only [List.length_cons]; omega⟩

/-- every record of a finished run has a two-valued status. -/
theorem run_scenario_statuses (stepList : List Step)
    (initVars : List (String × String))
    (rows : Option (List (List (String × String)))) (w : World) :
    ∀ r ∈ (run_scenario stepList initVars rows w).1.steps,
      r.status = "success" ∨ r.status = "failure" := by
  cases rows with
  | none =>
    simp only [run_scenario]
    have hm := execute_steps_traceExt stepList.length stepList le_rfl none 1
      { runtime_variables := [], trace := [], world := w }
    obtain ⟨ext, hext, hg⟩ := hm
    intro r hr
    rw [hext] at hr
    simp at hr
    exact (hg r hr).1
  | some rs =>
    simp only [run_scenario]
    obtain ⟨ext, hext, hg⟩ := runRows_trace stepList rs 0
      { runtime_variables := [], trace := [], world := w }
    intro r hr
    rw [hext] at hr
    simp at hr
    exact (hg r hr).1

/-- C9: for every completed run — with or without a propagated failure — the
finalized summary satisfies `passed_steps + failed_steps = total_steps`,
where `total_steps` is the length of the recorded StepResult list, and every
recorded StepResult has status `success` or `failure`. -/
theorem C9_summary_counts (stepList : List Step)
    (initVars : List (String × String))
    (rows : Option (List (List (String × String)))) (w : World) :
    (run_scenario stepList initVars rows w).1.summary.passed_steps +
        (run_scenario stepList initVars rows w).1.summary.failed_steps =
      (run_scenario stepList initVars rows w).1.summary.total_steps ∧
    (run_scenario stepList initVars rows w).1.summary.total_steps =
      (run_scenario stepList initVars rows w).1.steps.length ∧
    ∀ r ∈ (run_scenario stepList initVars rows w).1.steps,
      r.status = "success" ∨ r.status = "failure" := by
  have hst := run_scenario_statuses stepList initVars rows w
  refine ⟨?_, ?_, hst⟩
  · have := count_two_valued (run_scenario stepList initVars rows w).1.steps hst
    cases rows with
    | none => simpa [run_scenario] using this
    | some rs => simpa [run_scenario] using this
  · cases rows with
    | none => simp [run_scenario]
    | some rs => simp [run_scenario]

theorem findClose_of_append :
    ∀ (l : List Char), ¬ braceR ∈ l → ∀ (s : List Char),
      findClose (l ++ braceR :: braceR :: s) = some (l, s) := by
  intro l
  induction l with
  | nil =>
    intro _ s
    simp [findClose]
  | cons c t ih =>
    intro hmem s
    have hc : ¬ c = braceR := fun h => hmem (by simp [h])
    have ht : ¬ braceR ∈ t := fun h => hmem (by simp [h])
    simp only [List.cons_append, findClose, if_neg hc, List.append_eq, ih ht s]

/-- the substitution scan on a text that is exactly one placeholder
`\x7b\x7b name \x7d\x7d`: it looks the trimmed name up and replaces the
whole span, or propagates the lookup error. -/
theorem substAux_one (vars : List (String × String))
    (row : Option (List (String × String))) (name : String)
    (hbr : ¬ braceR ∈ name.data)
    (htrim : trimChars (' ' :: (name.data ++ [' '])) = name.data)
    (hnl : (name.data).contains '\n' = false) :
    substAux vars row
        (braceL :: braceL :: ' ' :: (name.data ++ [' ', braceR, braceR])) =
      match lookupVariable vars row name with
      | .ok v => .ok v.data
      | .error e => .error e := by
  have hsplit : ' ' :: (name.data ++ [' ', braceR, braceR]) =
      (' ' :: (name.data ++ [' '])) ++ braceR :: braceR :: [] := by
    simp
  have hmem : ¬ braceR ∈ (' ' :: (name.data ++ [' '])) := by
    intro h
    simp at h
    rcases h with h | h | h
    · exact absurd h.symm (by decide)
    · exact hbr h
    · exact absurd h.symm (by decide)
  have hfc : findClose (' ' :: (name.data ++ [' ', braceR, braceR])) =
      some (' ' :: (name.data ++ [' ']), []) := by
    rw [hsplit]
    exact findClose_of_append _ hmem []
  have hmkname : String.mk name.data = name := rfl
  simp only [substAux]
  rw [if_pos trivial, if_pos trivial]
  split
  · rename_i inner' suf' heq
    rw [hfc] at heq
    rw [Option.some_inj, Prod.mk.injEq] at heq
    obtain ⟨h1, h2⟩ := heq
    subst h1
    subst h2
    rw [htrim, hmkname, hnl]
    rw [if_neg (show ¬ (false = true) by decide)]
    cases hlv : lookupVariable vars row name with
    | error e => rfl
    | ok v => simp [substAux]
  · rename_i heq
    rw [hfc] at heq
    simp at heq

/-- C3 counterexample: with an empty Variable Store and no active data row,
`_resolve_variables` returns the text unchanged, placeholder and all — it
does not raise an undefined-variable error. -/
theorem C3_counterexample :
    resolve_variables [] none "\x7b\x7b name \x7d\x7d" =
      .ok "\x7b\x7b name \x7d\x7d" := by
  simp [resolve_variables]

/-- C3 (amended): on a text that is exactly one placeholder, when the store
is non-empty or a data row is active, the lookup tries the runtime store
first and then the (non-empty) data row; a key found in neither raises the
undefined-variable error naming the key.  With an empty store and no data
row the text is returned unchanged instead. -/
theorem C3_placeholder_resolution (vars : List (String × String))
    (row : Option (List (String × String))) (name text : String)
    (htext : text.data =
      braceL :: braceL :: ' ' :: (name.data ++ [' ', braceR, braceR]))
    (hbr : ¬ braceR ∈ name.data)
    (htrim : trimChars (' ' :: (name.data ++ [' '])) = name.data)
    (hnl : (name.data).contains '\n' = false)
    (hnontrivial : ¬ (row = none ∧ vars = [])) :
    (∀ v, lookupAssoc vars name = some v →
        resolve_variables vars row text = .ok v) ∧
    (∀ r v, lookupAssoc vars name = none → row = some r → ¬ r = [] →
        lookupAssoc r name = some v → resolve_variables vars row text = .ok v) ∧
    (∀ r, lookupAssoc vars name = none → row = some r → ¬ r = [] →
        lookupAssoc r name = none →
        resolve_variables vars row text = .error (.variableNotFound name)) ∧
    (lookupAssoc vars name = none → row = none →
        resolve_variables vars row text = .error (.variableNotFound name)) ∧
    (∀ t, resolve_variables [] none t = .ok t) := by
  have hsub := substAux_one vars row name hbr htrim hnl
  have hrv : resolve_variables vars row text =
      match lookupVariable vars row name with
      | .ok v => .ok (String.mk v.data)
      | .error e => .error e := by
    rw [resolve_variables, if_neg hnontrivial, htext, hsub]
    cases lookupVariable vars row name with
    | ok v => rfl
    | error e => rfl
  refine ⟨?_, ?_, ?_, ?_, ?_⟩
  · intro v hv
    rw [hrv]
    simp only [lookupVariable, hv]
  · intro r v hv hrow hr hlk
    rw [hrv]
    simp only [lookupVariable, hv, hrow, if_neg hr, hlk]
  · intro r hv hrow hr hlk
    rw [hrv]
    simp only [lookupVariable, hv, hrow, if_neg hr, hlk]
  · intro hv hrow
    rw [hrv]
    simp only [lookupVariable, hv, hrow]
  · intro t
    simp [resolve_variables]

/-- C3 witness: a concrete store and row exercising the amended theorem at
each arm (store hit, row fallback, miss). -/
theorem C3_witness :
    resolve_variables [("x", "a")] (some [("x", "b")]) "\x7b\x7b x \x7d\x7d" =
        .ok "a" ∧
    resolve_variables [("y", "c")] (some [("x", "b")]) "\x7b\x7b x \x7d\x7d" =
        .ok "b" ∧
    resolve_variables [("y", "c")] none "\x7b\x7b x \x7d\x7d" =
        .error (.variableNotFound "x") := by
  refine ⟨?_, ?_, ?_⟩
  · exact (C3_placeholder_resolution [("x", "a")] (some [("x", "b")]) "x"
      "\x7b\x7b x \x7d\x7d" (by decide) (by decide) (by decide) (by decide)
      (by simp)).1 "a" (by decide)
  · exact (C3_placeholder_resolution [("y", "c")] (some [("x", "b")]) "x"
      "\x7b\x7b x \x7d\x7d" (by decide) (by decide) (by decide) (by decide)
      (by simp)).2.1 [("x", "b")] "b" (by decide) rfl (by decide) (by decide)
  · exact (C3_placeholder_resolution [("y", "c")] none "x"
      "\x7b\x7b x \x7d\x7d" (by decide) (by decide) (by decide) (by decide)
      (by simp)).2.2.2.1 (by decide) rfl

/-- C8 counterexample: a descriptor whose only non-empty field is
`class_name` yields an *empty* criteria set — `class_name` is not among the
consulted fields — and resolving a path made of it raises the `ValueError`
even though the claim says such a descriptor has non-empty criteria. -/
theorem C8_counterexample :
    buildSearchCriteria { class_name := "Edit" } = [] ∧
    (find_element_dynamically [{ class_name := "Edit" }] {}) =
      ({}, some (.valueError "Final target has no valid identifiers")) := by
  exact ⟨rfl, rfl⟩

/-- C8 (amended): at every level, the search criteria are built from exactly
the non-empty fields among `auto_id`, `control_type` and `title` (in that
order); `class_name` is never consulted.  A descriptor whose `auto_id`,
`control_type` and `title` are all empty — even with a non-empty
`class_name` — raises a `ValueError`-class caller error, both as a parent
level and as the final target, before any surface query at that level. -/
theorem C8_search_criteria (p : ElementProps) :
    (∀ x, buildSearchCriteria { p with class_name := x } = buildSearchCriteria p) ∧
    (buildSearchCriteria p = [] ↔
      p.auto_id = "" ∧ p.control_type = "" ∧ p.title = "") ∧
    (lookupAssoc (buildSearchCriteria p) "auto_id" =
      if p.auto_id = "" then none else some p.auto_id) ∧
    (lookupAssoc (buildSearchCriteria p) "control_type" =
      if p.control_type = "" then none else some p.control_type) ∧
    (lookupAssoc (buildSearchCriteria p) "title" =
      if p.title = "" then none else some p.title) ∧
    (∀ k v, (k, v) ∈ buildSearchCriteria p →
      k = "auto_id" ∨ k = "control_type" ∨ k = "title") ∧
    (p.auto_id = "" → p.control_type = "" → p.title = "" →
      ∀ w, find_element_dynamically [p] w =
        (w, some (.valueError "Final target has no valid identifiers"))) ∧
    (p.auto_id = "" → p.control_type = "" → p.title = "" →
      ∀ (q : ElementProps) (rest : List ElementProps) (w : World),
        find_element_dynamically (p :: q :: rest) w =
          (w, some (.valueError "Path step has no valid identifiers"))) := by
  refine ⟨?_, ?_, ?_, ?_, ?_, ?_, ?_, ?_⟩
  · intro x
    rfl
  · by_cases h1 : p.auto_id = "" <;> by_cases h2 : p.control_type = "" <;>
      by_cases h3 : p.title = "" <;> simp [buildSearchCriteria, h1, h2, h3]
  · by_cases h1 : p.auto_id = "" <;> by_cases h2 : p.control_type = "" <;>
      by_cases h3 : p.title = "" <;> simp [buildSearchCriteria, lookupAssoc, h1, h2, h3]
  · by_cases h1 : p.auto_id = "" <;> by_cases h2 : p.control_type = "" <;>
      by_cases h3 : p.title = "" <;> simp [buildSearchCriteria, lookupAssoc, h1, h2, h3]
  · by_cases h1 : p.auto_id = "" <;> by_cases h2 : p.control_type = "" <;>
      by_cases h3 : p.title = "" <;> simp [buildSearchCriteria, lookupAssoc, h1, h2, h3]
  · intro k v hm
    by_cases h1 : p.auto_id = "" <;> by_cases h2 : p.control_type = "" <;>
      by_cases h3 : p.title = "" <;>
      simp [buildSearchCriteria, h1, h2, h3] at hm <;> tauto
  · intro h1 h2 h3 w
    have hcrit : buildSearchCriteria p = [] := by
      simp [buildSearchCriteria, h1, h2, h3]
    simp [find_element_dynamically, findParents, hcrit]
  · intro h1 h2 h3 q rest w
    have hcrit : buildSearchCriteria p = [] := by
      simp [buildSearchCriteria, h1, h2, h3]
    have hdl : (p :: q :: rest).dropLast = p :: (q :: rest).dropLast := rfl
    simp [find_element_dynamically, hdl, findParents, hcrit]

/-- C8 witness: the amended theorem applied to the class-name-only
descriptor. -/
theorem C8_witness :
    find_element_dynamically
        [({ class_name := "Edit" } : ElementProps)] { alive := [true] } =
      ({ alive := [true] }, some (.valueError "Final target has no valid identifiers")) :=
  (C8_search_criteria { class_name := "Edit" }).2.2.2.2.2.2.1 rfl rfl rfl
    { alive := [true] }

/-- every surface outcome still pending is a failure (also the default once
the stream is exhausted): the element simply cannot be driven. -/
def AllFail (w : World) : Prop := ∀ o ∈ w.ui, o = UIOutcome.fail

theorem popUI_allfail {w : World} (h : AllFail w) :
    (w.popUI).1 = .fail ∧ AllFail (w.popUI).2 := by
  unfold World.popUI
  cases hui : w.ui with
  | nil =>
    refine ⟨rfl, ?_⟩
    intro o ho
    exact h o ho
  | cons o t =>
    refine ⟨h o (by rw [hui]; simp), ?_⟩
    intro x hx
    simp at hx
    exact h x (by rw [hui]; simp; exact Or.inr hx)

/-- with an uncooperative surface the per-level search either raises the
caller `ValueError` (empty criteria) or the wait fails; the residual stream
stays all-fail, and a clean return is only possible with no parent levels. -/
theorem findParents_allfail (ps : List ElementProps) (w : World)
    (h : AllFail w) :
    AllFail (findParents ps w).1 ∧
      ((findParents ps w).2 = none → (findParents ps w).1 = w ∧ ps = []) := by
  cases ps with
  | nil => exact ⟨h, fun _ => ⟨rfl, rfl⟩⟩
  | cons p t =>
    simp only [findParents]
    by_cases hc : buildSearchCriteria p = []
    · rw [if_pos hc]
      exact ⟨h, by simp⟩
    · rw [if_neg hc]
      obtain ⟨hfail, hres⟩ := popUI_allfail h
      rcases hpop : w.popUI with ⟨o, w1⟩
      rw [hpop] at hfail hres
      simp at hfail
      subst hfail
      exact ⟨hres, by simp⟩

theorem find_element_dynamically_allfail (path : List ElementProps)
    (w : World) (h : AllFail w) :
    AllFail (find_element_dynamically path w).1 ∧
      ((find_element_dynamically path w).2 = none →
        (find_element_dynamically path w).1 = w) := by
  unfold find_element_dynamically
  cases hdl : path.dropLast with
  | cons p ps =>
    simp only [findParents]
    by_cases hc : buildSearchCriteria p = []
    · simp only [if_pos hc]
      exact ⟨h, by simp⟩
    · simp only [if_neg hc]
      obtain ⟨hfail, hres⟩ := popUI_allfail h
      rcases hpop : w.popUI with ⟨o, w1⟩
      rw [hpop] at hfail hres
      simp at hfail
      subst hfail
      exact ⟨hres, by simp⟩
  | nil =>
    simp only [findParents]
    cases hlast : path.getLast? with
    | none => exact ⟨h, by simp⟩
    | some p =>
      by_cases hc : buildSearchCriteria p = []
      · simp only [if_pos hc]
        exact ⟨h, by simp⟩
      · simp only [if_neg hc]
        exact ⟨h, by simp⟩

/-- with an uncooperative surface every single attempt of an action raises:
either a deterministic `ValueError`, or the element wait / search failure. -/
theorem attemptAction_allfail (step : Step)
    (row : Option (List (String × String))) (st : RunState)
    (h : AllFail st.world) :
    ∃ st' e, attemptAction step row st = (st', some e) ∧ AllFail st'.world ∧
      st'.trace = st.trace ∧ st'.runtime_variables = st.runtime_variables := by
  unfold attemptAction
  by_cases hp : step.path = []
  · rw [if_pos hp]
    exact ⟨st, _, rfl, h, rfl, rfl⟩
  · rw [if_neg hp]
    obtain ⟨hfw, hfnone⟩ := find_element_dynamically_allfail step.path st.world h
    rcases hfe : find_element_dynamically step.path st.world with ⟨w1, e1?⟩
    rw [hfe] at hfw hfnone
    cases e1? with
    | some e => exact ⟨{ st with world := w1 }, e, rfl, hfw, rfl, rfl⟩
    | none =>
      have hw1 : w1 = st.world := hfnone rfl
      subst hw1
      obtain ⟨hfail, hres⟩ := popUI_allfail h
      rcases hpop : st.world.popUI with ⟨o, w2⟩
      rw [hpop] at hfail hres
      simp at hfail
      subst hfail
      refine ⟨{ st with world := w2 }, .uiFailure, ?_, hres, rfl, rfl⟩
      dsimp only
      rw [hpop]

/-- with an uncooperative surface the whole retry loop exhausts. -/
theorem attemptLoop_allfail (step : Step)
    (row : Option (List (String × String))) :
    ∀ (n : Nat) (last : Option RunError) (st : RunState), AllFail st.world →
      ∃ st' l', attemptLoop step row n last st = .exhausted st' l' ∧
        AllFail st'.world ∧ st'.trace = st.trace ∧
        st'.runtime_variables = st.runtime_variables ∧
        (1 ≤ n → ∃ e, l' = some e) := by
  intro n
  induction n with
  | zero =>
    intro last st h
    exact ⟨st, last, rfl, h, rfl, rfl, by omega⟩
  | succ k ih =>
    intro last st h
    obtain ⟨st1, e, hat, hw1, htr1, hv1⟩ := attemptAction_allfail step row st h
    obtain ⟨st', l', hloop, hw', htr', hv', hl⟩ := ih (some e) st1 hw1
    refine ⟨st', l', ?_, hw', by rw [htr', htr1], by rw [hv', hv1], ?_⟩
    · simp only [attemptLoop, hat, hloop]
    · intro _
      cases k with
      | zero =>
        simp only [attemptLoop] at hloop
        rw [AttemptsResult.exhausted.injEq] at hloop
        exact ⟨e, hloop.2.symm⟩
      | succ m => exact hl (by omega)

/-- with an uncooperative surface `_execute_action` records exactly one
`failure` entry, and it propagates the last error precisely when the policy
method is `stop`. -/
theorem execute_action_allfail (step : Step)
    (row : Option (List (String × String))) (itn : Nat) (st : RunState)
    (h : AllFail st.world) :
    ∃ st1 l, execute_action step row itn st =
        (record_step_result step "failure" itn (errDetails l) st1,
          if (policyOf step).method = "stop" then l else none) ∧
      st1.trace = st.trace ∧ st1.runtime_variables = st.runtime_variables ∧
      AllFail st1.world ∧ (1 ≤ attemptsOf step → ∃ e, l = some e) := by
  obtain ⟨st1, l, hloop, hw, htr, hv, hl⟩ :=
    attemptLoop_allfail step row (attemptsOf step) none st h
  refine ⟨st1, l, ?_, htr, hv, hw, hl⟩
  unfold execute_action
  rw [hloop]
  by_cases hp : (policyOf step).method = "stop"
  · simp only [if_pos hp]
  · simp only [if_neg hp]

/-- an exhausted retry never re-raises: only the `stop` arm propagates. -/
theorem execute_action_retry_none (step : Step)
    (row : Option (List (String × String))) (itn : Nat) (st : RunState)
    (hm : (policyOf step).method = "retry") :
    (execute_action step row itn st).2 = none := by
  have hnstop : ¬ (policyOf step).method = "stop" := by rw [hm]; decide
  unfold execute_action
  cases attemptLoop step row (attemptsOf step) none st with
  | succeeded st' => rfl
  | exhausted st' last => simp [if_neg hnstop]

/-- C2 counterexample: a `Retry{2}` action whose two attempts both fail is
followed by a further step that runs and records — the exhausted retry did
not propagate and the run continues. -/
theorem C2_counterexample :
    (execute_steps [clickRetry2, clickA] none 1
        { world := { ui := [.fail, .fail, .ok "", .ok ""] } }).2 = none ∧
    ((execute_steps [clickRetry2, clickA] none 1
        { world := { ui := [.fail, .fail, .ok "", .ok ""] } }).1.trace.map
      (fun r => r.status)) = ["failure", "success"] := by
  constructor <;>
    simp [execute_steps, execute_loop, execute_action, attemptLoop, attemptAction,
      find_element_dynamically, findParents, buildSearchCriteria, check_app_is_alive,
      World.popAlive, World.popUI, World.popCond, record_step_result, policyOf,
      attemptsOf, find_catch_or_end_try, find_matching_end, find_else_or_end_if,
      sepGo, fmeGo, check_condition, resolveTargetMap, resolve_variables,
      execute_wait, errDetails, setVar, lookupAssoc, mkStepRecord,
      clickRetry2, clickA, elA]

/-- C2 (amended): when every one of a Retry step's attempts fails, the
engine records exactly one `failure` StepResult carrying the last error and
then returns *without* propagating: the enclosing step list continues with
the next step (Continue-like behaviour), it is not aborted as `Stop` would
abort it. -/
theorem C2_retry_exhaust_continues (step : Step)
    (row : Option (List (String × String))) (itn : Nat) (st : RunState)
    (hm : (policyOf step).method = "retry") :
    (execute_action step row itn st).2 = none ∧
    (AllFail st.world →
      ∃ st1 l, execute_action step row itn st =
        (record_step_result step "failure" itn (errDetails l) st1, none) ∧
        st1.trace = st.trace ∧ (1 ≤ attemptsOf step → ∃ e, l = some e)) ∧
    (∀ (rest : List Step) (w : World), st.world.popAlive = (true, w) →
      step.stype = "action" →
      execute_steps (step :: rest) row itn st =
        execute_steps rest row itn (execute_action step row itn
          { st with world := w }).1) := by
  have hnstop : ¬ (policyOf step).method = "stop" := by rw [hm]; decide
  refine ⟨execute_action_retry_none step row itn st hm, ?_, ?_⟩
  · intro hfail
    obtain ⟨st1, l, heq, htr, _, _, hl⟩ :=
      execute_action_allfail step row itn st hfail
    rw [if_neg hnstop] at heq
    exact ⟨st1, l, heq, htr, hl⟩
  · intro rest w halive hty
    rw [execute_steps_cons_action step rest row itn st w halive hty]
    have hnone := execute_action_retry_none step row itn { st with world := w } hm
    rcases hea : execute_action step row itn { st with world := w } with ⟨st1, e?⟩
    rw [hea] at hnone
    simp at hnone
    subst hnone
    rfl

/-- C2 witness: the amended theorem applied to a concrete `Retry{2}` click
against a surface that never cooperates. -/
theorem C2_witness :
    (execute_action clickRetry2 none 1 { world := { ui := [.fail, .fail] } }).2
      = none ∧
    (∃ st1 l, execute_action clickRetry2 none 1 { world := { ui := [.fail, .fail] } } =
      (record_step_result clickRetry2 "failure" 1 (errDetails l) st1, none) ∧
      st1.trace = ({ world := { ui := [.fail, .fail] } } : RunState).trace ∧
      (1 ≤ attemptsOf clickRetry2 → ∃ e, l = some e)) := by
  have h := C2_retry_exhaust_continues clickRetry2 none 1
    { world := { ui := [.fail, .fail] } } (by decide)
  exact ⟨h.1, h.2.1 (by intro o ho; simp at ho; simp [ho])⟩

/-- C6 counterexample: a `Stop` action failing inside a try/catch produces a
`failure` entry that is *followed* by the catch body's `success` entry from
a subsequent step, and the run does not abort — so "no StepResult entry for
any subsequent step appears after the failing entry" is false as stated. -/
theorem C6_counterexample :
    (execute_steps [tryS, clickA, catchS, clickA, tryE] none 1
        { world := { ui := [.fail, .ok "", .ok ""] } }).2 = none ∧
    ((execute_steps [tryS, clickA, catchS, clickA, tryE] none 1
        { world := { ui := [.fail, .ok "", .ok ""] } }).1.trace.map
      (fun r => r.status)) = ["failure", "success"] := by
  constructor <;>
    simp [execute_steps, execute_loop, execute_action, attemptLoop, attemptAction,
      find_element_dynamically, findParents, buildSearchCriteria, check_app_is_alive,
      World.popAlive, World.popUI, World.popCond, record_step_result, policyOf,
      attemptsOf, find_catch_or_end_try, find_matching_end, find_else_or_end_if,
      sepGo, fmeGo, check_condition, resolveTargetMap, resolve_variables,
      execute_wait, errDetails, setVar, lookupAssoc, mkStepRecord,
      tryS, catchS, tryE, clickA, elA]

/-- C6 (amended): a failing `Stop` action records exactly one `failure`
StepResult and propagates its error; the enclosing step list is aborted —
no further step of it runs or records — and a propagated error reaches
`run_scenario`, which finalizes the summary over the recorded trace with
status `Failure` and re-raises.  Only an enclosing try/catch (which
intercepts the propagated error) can let later steps append entries. -/
theorem C6_stop_aborts :
    (∀ (step : Step) (row : Option (List (String × String))) (itn : Nat)
        (st : RunState), (policyOf step).method = "stop" → AllFail st.world →
      ∃ st1 e, execute_action step row itn st =
        (record_step_result step "failure" itn (errDetails (some e)) st1, some e) ∧
        st1.trace = st.trace) ∧
    (∀ (s : Step) (rest : List Step) (row : Option (List (String × String)))
        (itn : Nat) (st st1 : RunState) (w : World) (e : RunError),
      st.world.popAlive = (true, w) → s.stype = "action" →
      execute_action s row itn { st with world := w } = (st1, some e) →
      execute_steps (s :: rest) row itn st = (st1, some e)) ∧
    (∀ (sl : List Step) (v : List (String × String)) (w : World)
        (st1 : RunState) (e : RunError),
      execute_steps sl none 1
          { runtime_variables := [], trace := [], world := w } = (st1, some e) →
      (run_scenario sl v none w).2 = some e ∧
      (run_scenario sl v none w).1.steps = st1.trace ∧
      (run_scenario sl v none w).1.summary.status = "Failure") := by
  refine ⟨?_, ?_, ?_⟩
  · intro step row itn st hm hfail
    obtain ⟨st1, l, heq, htr, _, _, hl⟩ :=
      execute_action_allfail step row itn st hfail
    have hatt : 1 ≤ attemptsOf step := by
      unfold attemptsOf
      rw [if_neg (by rw [hm]; decide)]
    obtain ⟨e, he⟩ := hl hatt
    subst he
    rw [if_pos hm] at heq
    exact ⟨st1, e, heq, htr⟩
  · intro s rest row itn st st1 w e halive hty hea
    rw [execute_steps_cons_action s rest row itn st w halive hty, hea]
  · intro sl v w st1 e hexec
    refine ⟨?_, ?_, ?_⟩ <;> simp [run_scenario, hexec]

/-- C6 witness: a concrete default-policy (`stop`) click against a dead
surface, then the propagation and finalization arms at that input. -/
theorem C6_witness :
    (∃ st1 e, execute_action clickA none 1 { world := { ui := [.fail] } } =
      (record_step_result clickA "failure" 1 (errDetails (some e)) st1, some e) ∧
      st1.trace = ({ world := { ui := [.fail] } } : RunState).trace) ∧
    (run_scenario [clickA] [] none { ui := [.fail] }).1.summary.status
      = "Failure" := by
  constructor
  · exact C6_stop_aborts.1 clickA none 1 { world := { ui := [.fail] } }
      (by decide) (by intro o ho; simp at ho; simp [ho])
  · have h1 : execute_steps [clickA] none 1
        { runtime_variables := [], trace := [],
          world := { ui := [.fail] } } =
        (execute_steps [clickA] none 1
          { runtime_variables := [], trace := [],
            world := { ui := [.fail] } }) := rfl
    rcases hx : execute_steps [clickA] none 1
        { runtime_variables := [], trace := [], world := { ui := [.fail] } }
      with ⟨st1, e?⟩
    cases e? with
    | some e =>
      exact (C6_stop_aborts.2.2 [clickA] [] { ui := [.fail] } st1 e hx).2.2
    | none =>
      exfalso
      have hcontra : (execute_steps [clickA] none 1
          { runtime_variables := [], trace := [],
            world := { ui := [.fail] } }).2 = some .uiFailure := by
        simp [execute_steps, execute_action, attemptLoop, attemptAction,
          find_element_dynamically, findParents, buildSearchCriteria,
          check_app_is_alive, World.popAlive, World.popUI, record_step_result,
          policyOf, attemptsOf, errDetails, lookupAssoc, mkStepRecord,
          clickA, elA]
      rw [hx] at hcontra
      simp at hcontra

/-- a single-level click attempt against a cooperating surface succeeds,
consuming the element wait and the click outcome. -/
theorem attemptAction_click_ok (step : Step)
    (row : Option (List (String × String))) (st : RunState)
    (p : ElementProps) (a b : String) (tail : List UIOutcome)
    (hpath : step.path = [p]) (hcrit : ¬ buildSearchCriteria p = [])
    (hact : step.action = "click")
    (hui : st.world.ui = .ok a :: .ok b :: tail) :
    attemptAction step row st =
      ({ st with world := { st.world with ui := tail } }, none) := by
  unfold attemptAction
  rw [hpath]
  rw [if_neg (by simp)]
  have hfind : find_element_dynamically [p] st.world = (st.world, none) := by
    unfold find_element_dynamically
    simp [findParents, hcrit]
  rw [hfind]
  dsimp only
  have hpop1 : st.world.popUI =
      (.ok a, { st.world with ui := .ok b :: tail }) := by
    unfold World.popUI
    rw [hui]
  rw [hpop1, hact]
  rfl

/-- a single-level click attempt whose element wait fails consumes exactly
one outcome and raises. -/
theorem attemptAction_click_fail (step : Step)
    (row : Option (List (String × String))) (st : RunState)
    (p : ElementProps) (tail : List UIOutcome)
    (hpath : step.path = [p]) (hcrit : ¬ buildSearchCriteria p = [])
    (hui : st.world.ui = .fail :: tail) :
    attemptAction step row st =
      ({ st with world := { st.world with ui := tail } }, some .uiFailure) := by
  unfold attemptAction
  rw [hpath]
  rw [if_neg (by simp)]
  have hfind : find_element_dynamically [p] st.world = (st.world, none) := by
    unfold find_element_dynamically
    simp [findParents, hcrit]
  rw [hfind]
  dsimp only
  have hpop1 : st.world.popUI = (.fail, { st.world with ui := tail }) := by
    unfold World.popUI
    rw [hui]
  rw [hpop1]

/-- the retry loop short-circuits at the first successful attempt. -/
theorem attemptLoop_eventual_success (step : Step)
    (row : Option (List (String × String))) (p : ElementProps) (a b : String)
    (tail : List UIOutcome)
    (hpath : step.path = [p]) (hcrit : ¬ buildSearchCriteria p = [])
    (hact : step.action = "click") :
    ∀ (k n : Nat) (last : Option RunError) (st : RunState), k < n →
      st.world.ui = List.replicate k .fail ++ .ok a :: .ok b :: tail →
      attemptLoop step row n last st =
        .succeeded { st with world := { st.world with ui := tail } } := by
  intro k
  induction k with
  | zero =>
    intro n last st hk hui
    simp only [List.replicate, List.nil_append] at hui
    cases n with
    | zero => omega
    | succ m =>
      simp only [attemptLoop,
        attemptAction_click_ok step row st p a b tail hpath hcrit hact hui]
  | succ j ih =>
    intro n last st hk hui
    simp only [List.replicate, List.cons_append] at hui
    cases n with
    | zero => omega
    | succ m =>
      have hfail := attemptAction_click_fail step row st p
        (List.replicate j .fail ++ .ok a :: .ok b :: tail) hpath hcrit hui
      simp only [attemptLoop, hfail]
      have hih := ih m (some .uiFailure) { st with world := { st.world with ui := List.replicate j UIOutcome.fail ++ UIOutcome.ok a :: UIOutcome.ok b :: tail } } (by omega) rfl
      rw [hih]

/-- C7: a `Retry{n}` action that fails on the first `k < n` attempts and
succeeds on attempt `k+1` appends exactly one StepResult, with status
`success`; the intermediate failed attempts leave no entries in the
structured trace. -/
theorem C7_retry_single_success (step : Step)
    (row : Option (List (String × String))) (itn : Nat) (st : RunState)
    (p : ElementProps) (n k : Nat) (a b : String) (tail : List UIOutcome)
    (hpath : step.path = [p]) (hcrit : ¬ buildSearchCriteria p = [])
    (hact : step.action = "click")
    (hpol : step.onError = some { method := "retry", retries := some n })
    (hk : k < n)
    (hui : st.world.ui = List.replicate k .fail ++ .ok a :: .ok b :: tail) :
    execute_action step row itn st =
      (record_step_result step "success" itn ""
        { st with world := { st.world with ui := tail } }, none) ∧
    (record_step_result step "success" itn ""
        { st with world := { st.world with ui := tail } }).trace =
      st.trace ++ [mkStepRecord step "success" itn ""] := by
  have hatt : attemptsOf step = n := by
    unfold attemptsOf policyOf
    rw [hpol]
    simp
  constructor
  · unfold execute_action
    rw [hatt, attemptLoop_eventual_success step row p a b tail hpath hcrit hact
      k n none st hk hui]
  · rfl

/-- C7 witness: `Retry{3}`, two failures then success. -/
theorem C7_witness :
    execute_action
        { stype := "action", action := "click", path := [elA],
          onError := some { method := "retry", retries := some 3 } }
        none 1 { world := { ui := [.fail, .fail, .ok "t", .ok "u"] } } =
      (record_step_result
        { stype := "action", action := "click", path := [elA],
          onError := some { method := "retry", retries := some 3 } }
        "success" 1 ""
        { world := { ui := ([] : List UIOutcome) } }, none) := by
  have h := C7_retry_single_success
    { stype := "action", action := "click", path := [elA],
      onError := some { method := "retry", retries := some 3 } }
    none 1 { world := { ui := [.fail, .fail, .ok "t", .ok "u"] } }
    elA 3 2 "t" "u" [] rfl (by decide) rfl rfl (by omega) (by decide)
  exact h.1

/-- the parent walk never produces the target-lost error: its failures are
`ValueError`s (a level with empty criteria) or surface failures. -/
theorem findParents_no_targetlost :
    ∀ (ps : List ElementProps) (w w' : World),
      findParents ps w ≠ (w', some RunError.targetAppClosed) := by
  intro ps
  induction ps with
  | nil => intro w w' h; simp [findParents] at h
  | cons p t ih =>
    intro w w' h
    simp only [findParents] at h
    split at h
    · simp at h
    · split at h
      · simp at h
      · exact ih _ _ h

/-- `_find_element_dynamically` never produces the target-lost error. -/
theorem find_element_dynamically_no_targetlost (path : List ElementProps)
    (w w' : World) :
    find_element_dynamically path w ≠ (w', some RunError.targetAppClosed) := by
  intro h
  unfold find_element_dynamically at h
  split at h
  · rename_i w1 e1 heq
    simp at h
    obtain ⟨h1, h2⟩ := h
    subst h2
    exact findParents_no_targetlost _ _ _ heq
  · rename_i w1 heq
    split at h
    · simp at h
    · split at h <;> simp at h

/-- a failing lookup in the replacer names the missing key. -/
theorem lookupVariable_error (vars : List (String × String))
    (row : Option (List (String × String))) (key : String) (e : RunError)
    (h : lookupVariable vars row key = .error e) :
    e = RunError.variableNotFound key := by
  unfold lookupVariable at h
  repeat' split at h
  all_goals simp_all

/-- the only error the substitution scan can raise is an undefined
variable. -/
theorem substAux_error (vars : List (String × String))
    (row : Option (List (String × String))) :
    ∀ (N : Nat) (l : List Char), l.length ≤ N → ∀ (e : RunError),
      substAux vars row l = .error e →
        ∃ k, e = RunError.variableNotFound k := by
  intro N
  induction N with
  | zero =>
    intro l hl e h
    have hnil : l = [] := List.eq_nil_of_length_eq_zero (Nat.le_zero.mp hl)
    subst hnil
    simp [substAux] at h
  | succ n ihN =>
    intro l hl e h
    cases l with
    | nil => simp [substAux] at h
    | cons c rest =>
      cases rest with
      | nil =>
        rw [substAux.eq_3] at h
        split at h
        · simp at h
        · split at h
          · simp at h
          · rename_i e1 hsub
            rw [substAux.eq_1] at hsub
            simp at hsub
      | cons c2 rest2 =>
        rw [substAux.eq_2] at h
        split at h
        · split at h
          · split at h
            · rename_i inner suf hfc
              dsimp only at h
              by_cases hkey : ((trimChars inner).contains '\n' = true)
              · rw [if_pos hkey] at h
                split at h
                · simp at h
                · rename_i e1 hsub
                  rw [Except.error.injEq] at h
                  subst h
                  refine ihN (c2 :: rest2) ?_ _ hsub
                  simp at hl ⊢
                  omega
              · rw [if_neg hkey] at h
                split at h
                · rename_i e1 hlook
                  rw [Except.error.injEq] at h
                  subst h
                  exact ⟨_, lookupVariable_error _ _ _ _ hlook⟩
                · rename_i v hlook
                  split at h
                  · simp at h
                  · rename_i e1 hsub
                    rw [Except.error.injEq] at h
                    subst h
                    refine ihN suf ?_ _ hsub
                    have hlt := findClose_suffix_lt _ _ _ hfc
                    simp at hl
                    omega
            · simp at h
          · split at h
            · simp at h
            · rename_i e1 hsub
              rw [Except.error.injEq] at h
              subst h
              refine ihN (c2 :: rest2) ?_ _ hsub
              simp at hl ⊢
              omega
        · split at h
          · simp at h
          · rename_i e1 hsub
            rw [Except.error.injEq] at h
            subst h
            refine ihN (c2 :: rest2) ?_ _ hsub
            simp at hl ⊢
            omega

/-- the only error `_resolve_variables` can raise is an undefined
variable. -/
theorem resolve_variables_error (vars : List (String × String))
    (row : Option (List (String × String))) (t : String) (e : RunError)
    (h : resolve_variables vars row t = .error e) :
    ∃ k, e = RunError.variableNotFound k := by
  unfold resolve_variables at h
  split at h
  · simp at h
  · split at h
    · simp at h
    · rename_i e1 hsub
      rw [Except.error.injEq] at h
      subst h
      exact substAux_error vars row t.data.length t.data (le_refl _) _ hsub

/-- one action attempt never produces the target-lost error: only the
per-step liveness probe (outside `_execute_action`) raises it. -/
theorem attemptAction_no_targetlost (step : Step)
    (row : Option (List (String × String))) (st : RunState) :
    ∀ (st' : RunState),
      attemptAction step row st ≠ (st', some RunError.targetAppClosed) := by
  intro st' h
  unfold attemptAction at h
  split at h
  · simp at h
  · split at h
    · rename_i w e1 heq
      simp at h
      obtain ⟨h1, h2⟩ := h
      subst h2
      exact find_element_dynamically_no_targetlost _ _ _ heq
    · split at h
      · simp at h
      · dsimp only at h
        split at h
        · split at h <;> simp at h
        · split at h
          · split at h
            · rename_i e1 hres
              simp at h
              obtain ⟨h1, h2⟩ := h
              subst h2
              obtain ⟨k, hk⟩ := resolve_variables_error _ _ _ _ hres
              simp at hk
            · split at h <;> simp at h
          · split at h
            · split at h
              · simp at h
              · split at h <;> simp at h
            · simp at h

/-- the retry loop never ends holding the target-lost error (given that it
did not start with one, which the caller guarantees with `last = None`). -/
theorem attemptLoop_no_targetlost (step : Step)
    (row : Option (List (String × String))) :
    ∀ (n : Nat) (last : Option RunError) (st st1 : RunState)
      (l : Option RunError),
      attemptLoop step row n last st = .exhausted st1 l →
      last ≠ some RunError.targetAppClosed →
      l ≠ some RunError.targetAppClosed := by
  intro n
  induction n with
  | zero =>
    intro last st st1 l h hlast
    simp only [attemptLoop] at h
    rw [AttemptsResult.exhausted.injEq] at h
    rw [← h.2]
    exact hlast
  | succ m ih =>
    intro last st st1 l h hlast
    simp only [attemptLoop] at h
    split at h
    · simp at h
    · rename_i st2 e1 hact
      refine ih (some e1) st2 st1 l h ?_
      intro hc
      rw [Option.some.injEq] at hc
      subst hc
      exact attemptAction_no_targetlost step row st st2 hact

/-- `_execute_action` never returns the target-lost error: no step's
`ErrorPolicy` (retry, stop or continue) ever handles one. -/
theorem execute_action_no_targetlost (step : Step)
    (row : Option (List (String × String))) (itn : Nat) (st : RunState) :
    ∀ (st' : RunState),
      execute_action step row itn st ≠ (st', some RunError.targetAppClosed) := by
  intro st' h
  simp only [execute_action] at h
  split at h
  · simp at h
  · rename_i st1 last hloop
    split at h
    · simp at h
      exact attemptLoop_no_targetlost step row (attemptsOf step) none st st1 last
        hloop (by simp) h.2
    · simp at h

/-- a try/catch block with no catch arm intercepts the outcome of its body
whatever the error was — the target-lost error included — and execution
resumes after the end marker. -/
theorem try_nocatch_intercepts (tS eS : Step) (body post : List Step)
    (row : Option (List (String × String))) (itn : Nat)
    (st : RunState) (w : World)
    (htS : IsKw tS "try_catch_start") (heS : IsKw eS "try_catch_end")
    (hbody : NoSep "try_catch_start" "try_catch_end" "catch_separator" body)
    (halive : st.world.popAlive = (true, w)) :
    execute_steps (tS :: (body ++ eS :: post)) row itn st =
      execute_steps post row itn
        (execute_steps body row itn { st with world := w }).1 := by
  obtain ⟨hty, hct⟩ := htS
  have hscan : find_catch_or_end_try (tS :: (body ++ eS :: post)) 0 =
      .ok (none, 1 + body.length) := by
    unfold find_catch_or_end_try
    have hdrop1 : (tS :: (body ++ eS :: post)).drop (0 + 1) = body ++ eS :: post := by
      simp
    rw [hdrop1]
    exact sepGo_spec_nosep _ _ _ (by decide) (by decide) body post eS heS hbody 1
  rw [execute_steps_cons_try_nocatch tS (body ++ eS :: post) row itn st w
    (1 + body.length) halive hty hct hscan]
  have hlen : 1 + body.length - 1 = body.length := by omega
  have htake : (body ++ eS :: post).take (1 + body.length - 1) = body := by
    rw [hlen]
    exact List.take_left body (eS :: post)
  have hdrop : (body ++ eS :: post).drop (1 + body.length) = post := by
    have h1 : (1 : Nat) + body.length = body.length + 1 := by omega
    rw [h1]
    exact drop_pre_cons body post eS
  rw [htake, hdrop]

/-- C1 counterexample: a target-lost error raised by the liveness probe
before a step *is* intercepted by an enclosing try/catch.  Bare, the probe
aborts the list with the target-lost error; wrapped in `try ... end`, the
same failing probe is swallowed, the interpreter returns no error, and the
whole run finishes with status `Success` — the run is not aborted. -/
theorem C1_counterexample :
    (execute_steps [clickA] none 1 { world := { alive := [false] } }).2
        = some RunError.targetAppClosed ∧
    (execute_steps [tryS, clickA, tryE] none 1
        { world := { alive := [true, false] } }).2 = none ∧
    (run_scenario [tryS, clickA, tryE] [] none
        { alive := [true, false] }).1.summary.status = "Success" := by
  refine ⟨?_, ?_, ?_⟩ <;>
    simp [run_scenario, execute_steps, execute_loop, execute_action, attemptLoop,
      attemptAction, find_element_dynamically, findParents, buildSearchCriteria,
      check_app_is_alive, World.popAlive, World.popUI, World.popCond,
      record_step_result, policyOf, attemptsOf, find_catch_or_end_try,
      find_matching_end, find_else_or_end_if, sepGo, fmeGo, check_condition,
      resolveTargetMap, resolve_variables, execute_wait, errDetails, setVar,
      lookupAssoc, mkStepRecord, tryS, tryE, clickA, elA]

/-- C1 (amended): the target-lost error is indeed never subject to any
step's `ErrorPolicy` — `_execute_action` can never return it, since only
the per-step liveness probe raises it — but it is *not* exempt from
try/catch: a `try_catch_start` block (here: without a catch arm) intercepts
every error its body propagates, the target-lost error included, and
execution resumes after the block instead of aborting the run. -/
theorem C1_target_lost_handling :
    (∀ (step : Step) (row : Option (List (String × String))) (itn : Nat)
        (st st' : RunState),
      execute_action step row itn st ≠ (st', some RunError.targetAppClosed)) ∧
    (∀ (tS eS : Step) (body post : List Step)
        (row : Option (List (String × String))) (itn : Nat)
        (st : RunState) (w : World),
      IsKw tS "try_catch_start" → IsKw eS "try_catch_end" →
      NoSep "try_catch_start" "try_catch_end" "catch_separator" body →
      st.world.popAlive = (true, w) →
      execute_steps (tS :: (body ++ eS :: post)) row itn st =
        execute_steps post row itn
          (execute_steps body row itn { st with world := w }).1) :=
  ⟨fun step row itn st st' =>
      execute_action_no_targetlost step row itn st st',
    fun tS eS body post row itn st w h1 h2 h3 h4 =>
      try_nocatch_intercepts tS eS body post row itn st w h1 h2 h3 h4⟩

/-- C1 witness: the no-ErrorPolicy arm at a concrete default-policy click
on a dead surface, and the interception arm at a concrete one-step try
block whose liveness probe fails. -/
theorem C1_witness :
    (execute_action clickA none 1 { world := { alive := [false] } } ≠
      ({ world := { alive := [false] } }, some RunError.targetAppClosed)) ∧
    execute_steps (tryS :: ([clickA] ++ tryE :: [])) none 1
        { world := { alive := [true, false] } } =
      execute_steps [] none 1
        (execute_steps [clickA] none 1
          { world := { alive := [false] } }).1 := by
  constructor
  · exact C1_target_lost_handling.1 clickA none 1
      { world := { alive := [false] } } _
  · exact C1_target_lost_handling.2 tryS tryE [clickA] [] none 1
      { world := { alive := [true, false] } } { alive := [false] }
      (by constructor <;> rfl) (by constructor <;> rfl)
      (NoSep.other (by decide) (by decide) (by decide) NoSep.nil)
      rfl

/-- `_check_condition` on any condition type other than `element_exists`
falls through to `return False` without touching the surface (given that
the target map resolved). -/
theorem check_condition_other (cond : Condition) (vars : List (String × String))
    (w : World) (tgt res : List (String × String))
    (htgt : cond.target = some tgt)
    (hres : resolveTargetMap vars none tgt = .ok res)
    (hct : cond.ctype ≠ "element_exists") :
    check_condition cond vars w = (w, .ok false) := by
  unfold check_condition
  rw [htgt]
  simp only [hres]
  rw [if_neg hct]

/-- C10: an `if_condition` whose condition type is anything other than
`element_exists` (e.g. `element_vanishes`) evaluates to false — the
condition is never actually checked against the surface — so the if-body is
skipped and the else-body runs; proved for a resolvable target (the
`.items()` walk and variable resolution succeed). -/
theorem C10_non_element_exists (ifS sep endS : Step) (b1 b2 post : List Step)
    (row : Option (List (String × String))) (itn : Nat)
    (st : RunState) (w : World) (tgt res : List (String × String))
    (hIf : IsKw ifS "if_condition") (hSep : IsKw sep "else")
    (hEnd : IsKw endS "end_if")
    (h1 : NoSep "if_condition" "end_if" "else" b1)
    (h2 : NoSep "if_condition" "end_if" "else" b2)
    (halive : st.world.popAlive = (true, w))
    (htgt : ifS.condition.target = some tgt)
    (hres : resolveTargetMap st.runtime_variables none tgt = .ok res)
    (hct : ifS.condition.ctype ≠ "element_exists") :
    check_condition ifS.condition st.runtime_variables w = (w, .ok false) ∧
    execute_steps (ifS :: (b1 ++ sep :: (b2 ++ endS :: post))) row itn st =
      (match execute_steps b2 row itn { st with world := w } with
       | (st', some e) => (st', some e)
       | (st', none) => execute_steps post row itn st') := by
  have hcc := check_condition_other ifS.condition st.runtime_variables w tgt res
    htgt hres hct
  refine ⟨hcc, ?_⟩
  obtain ⟨hty, hctw⟩ := hIf
  have hscan : find_else_or_end_if (ifS :: (b1 ++ sep :: (b2 ++ endS :: post))) 0 =
      .ok (some (1 + b1.length), 1 + b1.length + 1 + b2.length) := by
    unfold find_else_or_end_if
    have hd : (ifS :: (b1 ++ sep :: (b2 ++ endS :: post))).drop (0 + 1) =
        b1 ++ sep :: (b2 ++ endS :: post) := by simp
    rw [hd]
    exact sepGo_spec_sep _ _ _ (by decide) (by decide) (by decide) (by decide)
      b1 b2 post sep endS hSep hEnd h1 h2 1
  rw [execute_steps_cons_if_false_else ifS (b1 ++ sep :: (b2 ++ endS :: post))
    row itn st w w (1 + b1.length) (1 + b1.length + 1 + b2.length)
    halive hty hctw hscan hcc]
  have hdropE : (b1 ++ sep :: (b2 ++ endS :: post)).drop (1 + b1.length) =
      b2 ++ endS :: post := by
    rw [show (1 : Nat) + b1.length = b1.length + 1 from by omega]
    exact drop_pre_cons b1 (b2 ++ endS :: post) sep
  have htakeB : (b2 ++ endS :: post).take
      (1 + b1.length + 1 + b2.length - (1 + b1.length) - 1) = b2 := by
    have hn : 1 + b1.length + 1 + b2.length - (1 + b1.length) - 1 = b2.length := by
      omega
    rw [hn]
    exact List.take_left b2 (endS :: post)
  have hdropEnd : (b1 ++ sep :: (b2 ++ endS :: post)).drop
      (1 + b1.length + 1 + b2.length) = post := by
    rw [show b1 ++ sep :: (b2 ++ endS :: post) = (b1 ++ sep :: b2) ++ endS :: post
        from by simp,
      show 1 + b1.length + 1 + b2.length = (b1 ++ sep :: b2).length + 1
        from by simp; omega]
    exact drop_pre_cons (b1 ++ sep :: b2) post endS
  rw [hdropE, htakeB, hdropEnd]

/-- C10 witness: a concrete `element_vanishes` if/else block — the else
body is the continuation, at a surface that would have answered the check. -/
theorem C10_witness :
    check_condition ifVanish.condition []
        ({ ui := [.ok "", .ok ""] } : World) =
      (({ ui := [.ok "", .ok ""] } : World), .ok false) ∧
    execute_steps [ifVanish, clickA, elseS, clickA, ifE] none 1
        { world := { ui := [.ok "", .ok ""] } } =
      (match execute_steps [clickA] none 1
          { world := { ui := [.ok "", .ok ""] } } with
       | (st', some e) => (st', some e)
       | (st', none) => execute_steps [] none 1 st') := by
  exact C10_non_element_exists ifVanish elseS ifE [clickA] [clickA] [] none 1
    { world := { ui := [.ok "", .ok ""] } } { ui := [.ok "", .ok ""] }
    [("title", "X")] [("title", "X")]
    (by constructor <;> rfl) (by constructor <;> rfl) (by constructor <;> rfl)
    (NoSep.other (by decide) (by decide) (by decide) NoSep.nil)
    (NoSep.other (by decide) (by decide) (by decide) NoSep.nil)
    rfl rfl rfl (by decide)

/-- a `start_loop` marker (two iterations). -/
def loopS : Step :=
  { stype := "control", control_type := "start_loop", params := [("count", "2")] }

/-- an `end_loop` marker. -/
def loopE : Step :=
  { stype := "control", control_type := "end_loop" }

/-- C4: the depth-counting scanners are correct on well-formed blocks, for
each of the three opener/terminator keyword pairs: `_find_matching_end`
returns the opener's own terminator index under arbitrary nesting (nested
terminators are skipped, because every nested opener first bumps the
depth); `_find_else_or_end_if` and `_find_catch_or_end_try` additionally
report a single depth-1 `else` / `catch_separator` when present and `none`
when absent; and on a list with no matching terminator every scan raises a
`SyntaxError`-class structural error. -/
theorem C4_block_matching :
    (∀ (pre body post : List Step) (s e : Step),
      IsKw s "start_loop" → IsKw e "end_loop" →
      Balanced "start_loop" "end_loop" body →
      find_matching_end (pre ++ s :: (body ++ e :: post)) pre.length
          "start_loop" "end_loop" =
        .ok (pre.length + 1 + body.length)) ∧
    (∀ (pre body : List Step) (s : Step),
      IsKw s "start_loop" → Balanced "start_loop" "end_loop" body →
      find_matching_end (pre ++ s :: body) pre.length "start_loop" "end_loop" =
        .error (.structuralError ("No matching " ++ "end_loop"))) ∧
    (∀ (pre body post : List Step) (s e : Step),
      IsKw s "if_condition" → IsKw e "end_if" →
      NoSep "if_condition" "end_if" "else" body →
      find_else_or_end_if (pre ++ s :: (body ++ e :: post)) pre.length =
        .ok (none, pre.length + 1 + body.length)) ∧
    (∀ (pre b1 b2 post : List Step) (s sep e : Step),
      IsKw s "if_condition" → IsKw sep "else" → IsKw e "end_if" →
      NoSep "if_condition" "end_if" "else" b1 →
      NoSep "if_condition" "end_if" "else" b2 →
      find_else_or_end_if (pre ++ s :: (b1 ++ sep :: (b2 ++ e :: post)))
          pre.length =
        .ok (some (pre.length + 1 + b1.length),
          pre.length + 1 + b1.length + 1 + b2.length)) ∧
    (∀ (pre body : List Step) (s : Step),
      IsKw s "if_condition" → NoSep "if_condition" "end_if" "else" body →
      find_else_or_end_if (pre ++ s :: body) pre.length =
        .error (.structuralError ("No matching " ++ "end_if"))) ∧
    (∀ (pre body post : List Step) (s e : Step),
      IsKw s "try_catch_start" → IsKw e "try_catch_end" →
      NoSep "try_catch_start" "try_catch_end" "catch_separator" body →
      find_catch_or_end_try (pre ++ s :: (body ++ e :: post)) pre.length =
        .ok (none, pre.length + 1 + body.length)) ∧
    (∀ (pre b1 b2 post : List Step) (s sep e : Step),
      IsKw s "try_catch_start" → IsKw sep "catch_separator" →
      IsKw e "try_catch_end" →
      NoSep "try_catch_start" "try_catch_end" "catch_separator" b1 →
      NoSep "try_catch_start" "try_catch_end" "catch_separator" b2 →
      find_catch_or_end_try (pre ++ s :: (b1 ++ sep :: (b2 ++ e :: post)))
          pre.length =
        .ok (some (pre.length + 1 + b1.length),
          pre.length + 1 + b1.length + 1 + b2.length)) ∧
    (∀ (pre body : List Step) (s : Step),
      IsKw s "try_catch_start" →
      NoSep "try_catch_start" "try_catch_end" "catch_separator" body →
      find_catch_or_end_try (pre ++ s :: body) pre.length =
        .error (.structuralError ("No matching " ++ "try_catch_end"))) := by
  refine ⟨?_, ?_, ?_, ?_, ?_, ?_, ?_, ?_⟩
  · intro pre body post s e hs he hbody
    exact find_matching_end_spec _ _ (by decide) pre body post s e hs he hbody
  · intro pre body s hs hbody
    exact find_matching_end_unmatched _ _ (by decide) pre body s hs hbody
  · intro pre body post s e hs he hbody
    unfold find_else_or_end_if
    rw [drop_pre_cons]
    exact sepGo_spec_nosep _ _ _ (by decide) (by decide) body post e he hbody _
  · intro pre b1 b2 post s sep e hs hsep he h1 h2
    unfold find_else_or_end_if
    rw [drop_pre_cons]
    exact sepGo_spec_sep _ _ _ (by decide) (by decide) (by decide) (by decide)
      b1 b2 post sep e hsep he h1 h2 _
  · intro pre body s hs hbody
    unfold find_else_or_end_if
    rw [drop_pre_cons]
    exact sepGo_spec_unmatched _ _ _ (by decide) (by decide) body hbody _
  · intro pre body post s e hs he hbody
    unfold find_catch_or_end_try
    rw [drop_pre_cons]
    exact sepGo_spec_nosep _ _ _ (by decide) (by decide) body post e he hbody _
  · intro pre b1 b2 post s sep e hs hsep he h1 h2
    unfold find_catch_or_end_try
    rw [drop_pre_cons]
    exact sepGo_spec_sep _ _ _ (by decide) (by decide) (by decide) (by decide)
      b1 b2 post sep e hsep he h1 h2 _
  · intro pre body s hs hbody
    unfold find_catch_or_end_try
    rw [drop_pre_cons]
    exact sepGo_spec_unmatched _ _ _ (by decide) (by decide) body hbody _

/-- C4 witness: three concrete scans — a one-step loop body, an if/else
block, and a try block missing its end marker. -/
theorem C4_witness :
    find_matching_end [loopS, clickA, loopE] 0 "start_loop" "end_loop" =
      .ok 2 ∧
    find_else_or_end_if [ifVanish, clickA, elseS, clickA, ifE] 0 =
      .ok (some 2, 4) ∧
    find_catch_or_end_try [tryS, clickA] 0 =
      .error (.structuralError ("No matching " ++ "try_catch_end")) := by
  refine ⟨?_, ?_, ?_⟩
  · have h := C4_block_matching.1 [] [clickA] [] loopS loopE
      (by constructor <;> rfl) (by constructor <;> rfl)
      (Balanced.other (by decide) (by decide) Balanced.nil)
    simpa using h
  · have h := C4_block_matching.2.2.2.1 [] [clickA] [clickA] []
      ifVanish elseS ifE
      (by constructor <;> rfl) (by constructor <;> rfl) (by constructor <;> rfl)
      (NoSep.other (by decide) (by decide) (by decide) NoSep.nil)
      (NoSep.other (by decide) (by decide) (by decide) NoSep.nil)
    simpa using h
  · have h := C4_block_matching.2.2.2.2.2.2.2 [] [clickA] tryS
      (by constructor <;> rfl)
      (NoSep.other (by decide) (by decide) (by decide) NoSep.nil)
    simpa using h

/-- when a data-driven run propagates no error and the step list begins
with an action step, every row leaves at least one record tagged with its
iteration number: the head action records unconditionally (the only way
past it without a record is a propagated error). -/
theorem runRows_records (a : Step) (rest : List Step) (hty : a.stype = "action") :
    ∀ (rows : List (List (String × String))) (i : Nat) (st st' : RunState),
      runRows (a :: rest) rows i st = (st', none) →
      ∀ k, i + 1 ≤ k → k ≤ i + rows.length →
        ∃ r ∈ st'.trace, r.iteration = k := by
  intro rows
  induction rows with
  | nil =>
    intro i st st' h k hk1 hk2
    exfalso
    simp at hk2
    omega
  | cons row more ih =>
    intro i st st' h k hk1 hk2
    simp only [runRows] at h
    rcases hx : execute_steps (a :: rest) (some row) (i + 1)
        { st with runtime_variables := [] } with ⟨st1, e?⟩
    rw [hx] at h
    cases e? with
    | some e => simp at h
    | none =>
      simp only [] at h
      by_cases hk : k = i + 1
      · subst hk
        rcases halive : ({ st with runtime_variables := [] } :
            RunState).world.popAlive with ⟨b, w⟩
        cases b with
        | false =>
          rw [execute_steps_cons_dead a rest (some row) (i + 1) _ w halive] at hx
          simp at hx
        | true =>
          rw [execute_steps_cons_action a rest (some row) (i + 1) _ w halive hty]
            at hx
          rcases hea : execute_action a (some row) (i + 1)
              { { st with runtime_variables := [] } with world := w }
            with ⟨stA, eA?⟩
          rw [hea] at hx
          cases eA? with
          | some e => simp at hx
          | none =>
            simp only [] at hx
            obtain ⟨rec, hrec, hgood⟩ := execute_action_one_record a (some row)
              (i + 1) { { st with runtime_variables := [] } with world := w }
            rw [hea] at hrec
            have hrecmem : rec ∈ stA.trace := by
              rw [hrec]; simp
            obtain ⟨ext1, hext1, -⟩ := execute_steps_traceExt rest.length rest
              le_rfl (some row) (i + 1) stA
            rw [hx] at hext1
            have hmem1 : rec ∈ st1.trace := by
              rw [hext1]
              exact List.mem_append_left _ hrecmem
            obtain ⟨ext2, hext2, -⟩ := runRows_trace (a :: rest) more (i + 1) st1
            rw [h] at hext2
            refine ⟨rec, ?_, hgood.2⟩
            rw [hext2]
            exact List.mem_append_left _ hmem1
      · have h5 : i + 1 + 1 ≤ k := by omega
        have h6 : k ≤ i + 1 + more.length := by
          simp at hk2
          omega
        exact ih (i + 1) st1 st' h k h5 h6

/-- C5 counterexample: over two data rows, a first-row `Stop` failure
aborts the whole run before the second row ever executes — the recorded
iteration numbers are `[1]`, not `1..2`, although the summary still says
`data_iterations = 2`. -/
theorem C5_counterexample :
    ((run_scenario [clickA] [] (some [[("c", "1")], [("c", "2")]])
        { ui := [.fail] }).1.steps.map (fun r => r.iteration)) = [1] ∧
    (run_scenario [clickA] [] (some [[("c", "1")], [("c", "2")]])
        { ui := [.fail] }).1.summary.data_iterations = 2 := by
  constructor <;>
    simp [run_scenario, runRows, execute_steps, execute_loop, execute_action,
      attemptLoop, attemptAction, find_element_dynamically, findParents,
      buildSearchCriteria, check_app_is_alive, World.popAlive, World.popUI,
      World.popCond, record_step_result, policyOf, attemptsOf,
      find_catch_or_end_try, find_matching_end, find_else_or_end_if, sepGo,
      fmeGo, check_condition, resolveTargetMap, resolve_variables, execute_wait,
      errDetails, setVar, lookupAssoc, mkStepRecord, clickA, elA]

/-- C5 (amended): in a data-driven run over `N` rows the rows execute in
order with iteration numbers `1..N`, but only until the first propagated
error — rows after it are skipped.  What holds unconditionally: every
recorded iteration tag lies in `1..N`; when no error propagates and the
list begins with an action step, every iteration `1..N` is represented in
the trace; the runtime store is reset at the start of every row (an
incoming store is discarded before each row executes), and a run discards
whatever store the runner held beforehand. -/
theorem C5_data_rows :
    (∀ (stepList : List Step) (v : List (String × String))
        (rows : List (List (String × String))) (w : World),
      ∀ r ∈ (run_scenario stepList v (some rows) w).1.steps,
        1 ≤ r.iteration ∧ r.iteration ≤ rows.length) ∧
    (∀ (a : Step) (rest : List Step) (v : List (String × String))
        (rows : List (List (String × String))) (w : World),
      a.stype = "action" →
      (run_scenario (a :: rest) v (some rows) w).2 = none →
      ∀ k, 1 ≤ k → k ≤ rows.length →
        ∃ r ∈ (run_scenario (a :: rest) v (some rows) w).1.steps,
          r.iteration = k) ∧
    (∀ (stepList : List Step) (row : List (String × String))
        (more : List (List (String × String))) (i : Nat) (st : RunState),
      runRows stepList (row :: more) i st =
        runRows stepList (row :: more) i { st with runtime_variables := [] }) ∧
    (∀ (stepList : List Step) (v v2 : List (String × String))
        (rows : Option (List (List (String × String)))) (w : World),
      run_scenario stepList v rows w = run_scenario stepList v2 rows w) := by
  refine ⟨?_, ?_, ?_, ?_⟩
  · intro stepList v rows w r hr
    obtain ⟨ext, hext, hg⟩ := runRows_trace stepList rows 0
      { runtime_variables := [], trace := [], world := w }
    simp only [run_scenario] at hr
    rw [hext] at hr
    simp at hr
    obtain ⟨-, h3, h4⟩ := hg r hr
    exact ⟨by omega, by omega⟩
  · intro a rest v rows w hty h2 k hk1 hk2
    rcases hrr : runRows (a :: rest) rows 0
        { runtime_variables := [], trace := [], world := w } with ⟨st', e?⟩
    have he : e? = none := by
      have hh : (run_scenario (a :: rest) v (some rows) w).2 = e? := by
        simp only [run_scenario, hrr]
      rw [h2] at hh
      exact hh.symm
    subst he
    obtain ⟨r, hr, hri⟩ := runRows_records a rest hty rows 0 _ st' hrr k
      (by omega) (by omega)
    refine ⟨r, ?_, hri⟩
    simp only [run_scenario, hrr]
    exact hr
  · intro stepList row more i st
    rfl
  · intro stepList v v2 rows w
    rfl

/-- C5 witness: a two-row run against a cooperating surface — both rows
record, iteration tags stay within `1..2`, iteration 2 is represented —
plus the store-clearing arms at a runner holding a stale variable. -/
theorem C5_witness :
    (1 ≤ (mkStepRecord clickA "success" 2 "").iteration ∧
      (mkStepRecord clickA "success" 2 "").iteration ≤ 2) ∧
    (∃ r ∈ (run_scenario [clickA] [] (some [[("c", "1")], [("c", "2")]])
        { ui := [.ok "", .ok "", .ok "", .ok ""] }).1.steps,
      r.iteration = 2) ∧
    runRows [clickA] [[("c", "1")]] 0
        { runtime_variables := [("v", "stale")], trace := [], world := {} } =
      runRows [clickA] [[("c", "1")]] 0
        { runtime_variables := [], trace := [], world := {} } ∧
    run_scenario [clickA] [("v", "stale")] none {} =
      run_scenario [clickA] [] none {} := by
  have hsteps : (run_scenario [clickA] [] (some [[("c", "1")], [("c", "2")]])
      { ui := [.ok "", .ok "", .ok "", .ok ""] }).1.steps =
      [mkStepRecord clickA "success" 1 "", mkStepRecord clickA "success" 2 ""] := by
    simp [run_scenario, runRows, execute_steps, execute_loop, execute_action,
      attemptLoop, attemptAction, find_element_dynamically, findParents,
      buildSearchCriteria, check_app_is_alive, World.popAlive, World.popUI,
      World.popCond, record_step_result, policyOf, attemptsOf,
      find_catch_or_end_try, find_matching_end, find_else_or_end_if, sepGo,
      fmeGo, check_condition, resolveTargetMap, resolve_variables, execute_wait,
      errDetails, setVar, lookupAssoc, mkStepRecord, clickA, elA]
  refine ⟨?_, ?_, ?_, ?_⟩
  · have h := C5_data_rows.1 [clickA] [] [[("c", "1")], [("c", "2")]]
      { ui := [.ok "", .ok "", .ok "", .ok ""] }
      (mkStepRecord clickA "success" 2 "") (by rw [hsteps]; simp)
    simpa using h
  · have herr : (run_scenario [clickA] [] (some [[("c", "1")], [("c", "2")]])
        { ui := [.ok "", .ok "", .ok "", .ok ""] }).2 = none := by
      simp [run_scenario, runRows, execute_steps, execute_loop, execute_action,
        attemptLoop, attemptAction, find_element_dynamically, findParents,
        buildSearchCriteria, check_app_is_alive, World.popAlive, World.popUI,
        World.popCond, record_step_result, policyOf, attemptsOf,
        find_catch_or_end_try, find_matching_end, find_else_or_end_if, sepGo,
        fmeGo, check_condition, resolveTargetMap, resolve_variables,
        execute_wait, errDetails, setVar, lookupAssoc, mkStepRecord, clickA, elA]
    exact C5_data_rows.2.1 clickA [] [] [[("c", "1")], [("c", "2")]]
      { ui := [.ok "", .ok "", .ok "", .ok ""] } rfl herr 2 (by omega) (by simp)
  · exact C5_data_rows.2.2.1 [clickA] [("c", "1")] [] 0
      { runtime_variables := [("v", "stale")], trace := [], world := {} }
  · exact C5_data_rows.2.2.2 [clickA] [("v", "stale")] [] none {}

end AutoFlow
